import Mathlib

/-!
Verification development for the LEANN reader subsystem
(`packages/leann-core/src/leann/readers.py`).

The Python readers are shallowly embedded: pure helpers become Lean
functions on `String`/`List Char`/`Int`; the effectful parts of each
`load_data` (filesystem, sqlite) are modelled by an explicit environment
record (an oracle saying which source files exist, which steps raise,
and which rows a query returns), and each `load_data` becomes a total
Lean function from that environment to an outcome record that carries
the returned documents, the connection paths opened, whether the fixed
scratch file exists after the call, and the logged error lines.
Python exceptions are explicit: an inner step yields `PyResult`, and the
`try/except` structure of the source is mirrored by the handlers.
`localtime` is modelled as UTC, and CPython float overflow on
`int / int` true division is modelled with an explicit magnitude bound.
-/

/-- Python values as they occur in the metadata dicts and JSON payloads of
the reader module: strings, ints, bools, `None`, and lists of strings. -/
inductive PyVal where
  | str (s : String)
  | int (n : Int)
  | bool (b : Bool)
  | null
  | strList (xs : List String)
deriving Repr, DecidableEq

/-- Python truthiness for the modelled values. -/
def pyTruthy : PyVal → Bool
  | .str s => s ≠ ""
  | .int n => n ≠ 0
  | .bool b => b
  | .null => false
  | .strList xs => xs ≠ []

/-- Digits of a natural, most significant first (fuel-based so that the
kernel can evaluate it; `fuel = n + 1` always suffices). -/
def natToDigitsAux : Nat → Nat → List Char → List Char
  | 0, _, acc => acc
  | fuel + 1, n, acc =>
    if n / 10 = 0 then Char.ofNat (48 + n % 10) :: acc
    else natToDigitsAux fuel (n / 10) (Char.ofNat (48 + n % 10) :: acc)

/-- Decimal digits of a natural number, most significant first. -/
def natToDigits (n : Nat) : List Char := natToDigitsAux (n + 1) n []

/-- Decimal rendering of a natural number (model of Python `str`). -/
def pyNatStr (n : Nat) : String := String.mk (natToDigits n)

/-- Decimal rendering of an integer (model of Python `str`). -/
def pyIntStr (n : Int) : String :=
  if n < 0 then "-" ++ pyNatStr n.natAbs else pyNatStr n.natAbs

/-- Model of Python `str.join` on a list of strings. -/
def joinSep (sep : String) : List String → String
  | [] => ""
  | [p] => p
  | p :: q :: rest => p ++ sep ++ joinSep sep (q :: rest)

/-- Model of Python `str(value)` for the modelled values (list elements are
shown with `repr` quotes, as Python does). -/
def pyStr : PyVal → String
  | .str s => s
  | .int n => pyIntStr n
  | .bool b => if b then "True" else "False"
  | .null => "None"
  | .strList xs =>
    "[" ++ joinSep ", " (xs.map (fun s => String.mk ['\''] ++ s ++ String.mk ['\''])) ++ "]"

/-- A llama-index `Document`: text plus a metadata dict (insertion order kept). -/
structure Document where
  text : String
  metadata : List (String × PyVal)
deriving Repr, DecidableEq

/-- Lookup in a metadata dict (first binding wins, as in a Python dict). -/
def lookupMeta (m : List (String × PyVal)) (k : String) : Option PyVal :=
  (m.find? (fun p => p.1 == k)).map (fun p => p.2)

/-- The Python exception classes relevant to the reader module. -/
inductive PyExc where
  | valueError
  | osError
  | overflowError
  | sqlite3Error
  | generic
deriving Repr, DecidableEq

/-- Result of running a piece of Python code: a value, or a raised exception. -/
inductive PyResult (α : Type) where
  | ok (a : α)
  | raised (e : PyExc)
deriving Repr, DecidableEq

/-- Python `x or y` on an optional string column: `None` and `""` are falsy. -/
def orStr (o : Option String) (d : String) : String :=
  match o with
  | some s => if s = "" then d else s
  | none => d

/-- Rendering of an optional string column inside an f-string:
`None` prints as `"None"`. -/
def fStr (o : Option String) : String :=
  match o with
  | some s => s
  | none => "None"

/-- Python `x or ''` on an optional string column. -/
def orEmpty (o : Option String) : String := orStr o ""

/-- Optional integer column as a metadata value: SQL NULL becomes Python `None`. -/
def optIntVal (o : Option Int) : PyVal :=
  match o with
  | some n => .int n
  | none => .null

/-- Truthiness of an optional string column (`None` and `""` are falsy). -/
def truthyStr (o : Option String) : Bool :=
  match o with
  | some s => s ≠ ""
  | none => false

/-- Characters matched by the regex class `\s` (ASCII range). -/
def pySpaceChar (c : Char) : Bool :=
  c = ' ' || c = '\t' || c = '\n' || c = '\r' || c = '\x0b' || c = '\x0c'

/-- Model of Python `str.strip()` on a character list. -/
def pyStripList (l : List Char) : List Char :=
  ((l.dropWhile pySpaceChar).reverse.dropWhile pySpaceChar).reverse

/-- Does `l` start with `needle`? -/
def startsWithList : List Char → List Char → Bool
  | _, [] => true
  | [], _ :: _ => false
  | h :: hs, n :: ns => h = n && startsWithList hs ns

/-- Does `hay` contain `needle` as a contiguous substring
(model of Python `needle in hay`)? -/
def containsSubList : List Char → List Char → Bool
  | [], needle => startsWithList [] needle
  | h :: rest, needle => startsWithList (h :: rest) needle || containsSubList rest needle

/-- Index of the first `':'` in a character list, if any. -/
def findColon : List Char → Option Nat
  | [] => none
  | c :: rest => if c = ':' then some 0 else (findColon rest).map (· + 1)

/-- Model of `re.sub(r"^[^:]+:\s*", "", s)`: strip one leading
`label:`-style prefix (at least one non-colon character before the colon),
together with the whitespace following the colon. -/
def stripColonPrefixFrom (l : List Char) : List Char :=
  match findColon l with
  | some j => if j = 0 then l else (l.drop (j + 1)).dropWhile pySpaceChar
  | none => l

/-- Model of `re.sub(r"^wxid_[^:]+:\s*", "", s)`: strip one leading
platform-internal `wxid_...:` prefix. -/
def stripWxidPrefixFrom (l : List Char) : List Char :=
  if l.take 5 = "wxid_".data then
    match findColon (l.drop 5) with
    | some j => if j = 0 then l else (l.drop (5 + j + 1)).dropWhile pySpaceChar
    | none => l
  else l

/-- First-seen-order deduplication (the key order of a Python dict built by
insertion, and the model used for set iteration order). -/
def firstSeen {α : Type} [DecidableEq α] (l : List α) : List α :=
  l.foldl (fun acc a => if acc.any (fun b => b == a) then acc else acc ++ [a]) []

/-- SQLite `LIMIT ?` semantics: a negative limit means no bound,
`LIMIT 0` returns no rows. -/
def limitRows {α : Type} (mc : Int) (rows : List α) : List α :=
  if mc < 0 then rows else rows.take mc.toNat

/-- Two-digit zero-padded rendering. -/
def pad2 (n : Nat) : String := if n < 10 then "0" ++ pyNatStr n else pyNatStr n

/-- Four-digit zero-padded rendering. -/
def pad4 (n : Nat) : String :=
  if n < 10 then "000" ++ pyNatStr n
  else if n < 100 then "00" ++ pyNatStr n
  else if n < 1000 then "0" ++ pyNatStr n
  else pyNatStr n

/-- Civil date from a day count relative to 1970-01-01 (proleptic Gregorian). -/
def civilFromDays (z0 : Int) : Int × Nat × Nat :=
  let z := z0 + 719468
  let era : Int := Int.fdiv z 146097
  let doe : Nat := (z - era * 146097).toNat
  let yoe : Nat := (doe - doe / 1460 + doe / 36524 - doe / 146096) / 365
  let doy : Nat := doe - (365 * yoe + yoe / 4 - yoe / 100)
  let mp : Nat := (5 * doy + 2) / 153
  let d : Nat := doy - (153 * mp + 2) / 5 + 1
  let m : Nat := if mp < 10 then mp + 3 else mp - 9
  let y : Int := (yoe : Int) + era * 400 + (if m ≤ 2 then 1 else 0)
  (y, m, d)

/-- Render unix seconds as `"%Y-%m-%d %H:%M:%S"` (localtime modelled as UTC). -/
def formatYmdHms (secs : Int) : String :=
  let days := Int.fdiv secs 86400
  let rem := (secs - days * 86400).toNat
  let c := civilFromDays days
  pad4 c.1.toNat ++ "-" ++ pad2 c.2.1 ++ "-" ++ pad2 c.2.2 ++ " " ++
    pad2 (rem / 3600) ++ ":" ++ pad2 (rem % 3600 / 60) ++ ":" ++ pad2 (rem % 60)

/-- Earliest unix second `datetime.fromtimestamp` accepts (0001-01-01). -/
def minFromtimestampSecs : Int := -62135596800

/-- Latest unix second `datetime.fromtimestamp` accepts (9999-12-31 23:59:59). -/
def maxFromtimestampSecs : Int := 253402300799

/-- Magnitude of unix seconds beyond the platform `time_t` range, at which
CPython `datetime.fromtimestamp` raises `OverflowError`
("timestamp out of range for platform time_t"). -/
def timetOverflowSecs : Int := 2 ^ 63

/-- Model of CPython `datetime.fromtimestamp(secs).strftime("%Y-%m-%d %H:%M:%S")`:
values beyond the `time_t` range raise `OverflowError`; values within `time_t`
but outside the supported calendar raise `ValueError`/`OSError` (modelled as
`ValueError`, which the reader code treats identically to `OSError`). -/
def fromtimestampFmt (secs : Int) : PyResult String :=
  if timetOverflowSecs ≤ secs ∨ secs ≤ -timetOverflowSecs then .raised .overflowError
  else if secs < minFromtimestampSecs ∨ maxFromtimestampSecs < secs then .raised .valueError
  else .ok (formatYmdHms secs)

/-- Unix seconds of the reference epoch 2001-01-01 (value of
`datetime(2001, 1, 1).timestamp()` with localtime modelled as UTC). -/
def cocoaEpochUnix : Int := 978307200

/-- Magnitude of an integer numerator at which CPython `n / 1_000_000_000`
(true division producing a float) raises
`OverflowError: integer division result too large for a float`
(boundary modelled as `2 ^ 1024` on the quotient; written as a numeral so
the kernel can evaluate comparisons, see `floatOverflowNs_eq`). -/
def floatOverflowNs : Int := 179769313486231590772930519078902473361797697894230657273430081157732675805500963132708477322407536021120113879871393357658789768814416622492847430639474124377767893424865485276302219601246094119453082952085005768838150682342462881473913110540827237163350510684586298239947245938479716304835356329624224137216000000000

/-- The `try` block of `IMessageReader._convert_cocoa_timestamp`
(readers.py lines 150-156): divide the nanosecond count by `10 ^ 9`,
add the reference epoch, format via `fromtimestamp`. -/
def convertCocoaTryBody (cocoa_timestamp : Int) : PyResult String :=
  if floatOverflowNs ≤ cocoa_timestamp ∨ cocoa_timestamp ≤ -floatOverflowNs then
    .raised .overflowError
  else
    fromtimestampFmt (cocoaEpochUnix + Int.fdiv cocoa_timestamp (10 ^ 9))

/-- Model of `IMessageReader._convert_cocoa_timestamp`
(readers.py lines 137-158): `0` maps to `"Unknown"`; the `try` body runs
and `except (ValueError, OSError)` yields `"Unknown"`, while any other
exception (notably `OverflowError`) propagates. -/
def convertCocoaTimestamp (cocoa_timestamp : Int) : PyResult String :=
  if cocoa_timestamp = 0 then .ok "Unknown"
  else
    match convertCocoaTryBody cocoa_timestamp with
    | .ok s => .ok s
    | .raised e =>
      if e = PyExc.valueError ∨ e = PyExc.osError then .ok "Unknown" else .raised e

/-- Model of `IMessageReader._get_contact_name` (readers.py lines 160-186):
empty handles give `"Unknown"`; handles containing `"@"` or starting with
`"+"` pass through; otherwise the digit characters are extracted and
counted (10, or 11 with a leading `1`) to decide phone formatting. -/
def getContactName (handle_id : String) : String :=
  if handle_id = "" then "Unknown"
  else if handle_id.data.contains '@' then handle_id
  else if startsWithList handle_id.data ['+'] then handle_id
  else if (handle_id.data.filter Char.isDigit).length = 10 then
    "(" ++ String.mk ((handle_id.data.filter Char.isDigit).take 3) ++ ") " ++
      String.mk (((handle_id.data.filter Char.isDigit).drop 3).take 3) ++ "-" ++
      String.mk ((handle_id.data.filter Char.isDigit).drop 6)
  else if (handle_id.data.filter Char.isDigit).length = 11 ∧
      (handle_id.data.filter Char.isDigit).take 1 = ['1'] then
    "+1 (" ++ String.mk (((handle_id.data.filter Char.isDigit).drop 1).take 3) ++ ") " ++
      String.mk (((handle_id.data.filter Char.isDigit).drop 4).take 3) ++ "-" ++
      String.mk ((handle_id.data.filter Char.isDigit).drop 7)
  else handle_id

/-- A raw WeChat message payload as decoded from JSON: Python `None`, a
string, a dict (modelled by its bindings), or any other value. -/
inductive Payload where
  | none
  | str (s : String)
  | dict (fields : List (String × PyVal))
  | other
deriving Repr, DecidableEq

/-- Python `dict.get` on the modelled payload dict. -/
def lookupVal (fields : List (String × PyVal)) (k : String) : Option PyVal :=
  (fields.find? (fun p => p.1 == k)).map (fun p => p.2)

/-- Truthiness of a `dict.get` result (`None` for a missing key). -/
def optTruthy (o : Option PyVal) : Bool :=
  match o with
  | some v => pyTruthy v
  | none => false

/-- The markup tags whose presence makes a string payload non-text. -/
def wechatTags : List (List Char) :=
  ["<img".data, "<emoji".data, "<voice".data, "<video".data, "<appmsg".data]

/-- The recalled-message phrase. -/
def recalledPhrase : List Char := "recalled a message".data

/-- The dict field set checked by the WeChat sanitizer. -/
def wechatDictFields : List String := ["title", "quoted", "content", "text"]

/-- The renderable parts of a structured payload (readers.py lines
559-563): the values of the truthy fields among the fixed field set. -/
def wechatDictParts (fields : List (String × PyVal)) : List String :=
  wechatDictFields.filterMap (fun f =>
    match lookupVal fields f with
    | some v => if pyTruthy v then some (pyStr v) else Option.none
    | Option.none => Option.none)

/-- Model of `WeChatHistoryReader._extract_readable_text`
(readers.py lines 555-571). -/
def extractReadableText : Payload → String
  | .none => ""
  | .other => ""
  | .dict fields =>
    if fields = [] then ""
    else if wechatDictParts fields = [] then ""
    else joinSep " | " (wechatDictParts fields)
  | .str s =>
    if s = "" then ""
    else if startsWithList (pyStripList (stripColonPrefixFrom (stripWxidPrefixFrom s.data))) ['<']
        || containsSubList (stripColonPrefixFrom (stripWxidPrefixFrom s.data)) recalledPhrase
    then ""
    else String.mk (pyStripList (stripColonPrefixFrom (stripWxidPrefixFrom s.data)))

/-- Model of `WeChatHistoryReader._is_text_message`
(readers.py lines 573-586). -/
def isTextMessage : Payload → Bool
  | .none => false
  | .other => false
  | .dict fields =>
    if fields = [] then false
    else wechatDictFields.any (fun f => optTruthy (lookupVal fields f))
  | .str s =>
    if s = "" then false
    else if wechatTags.any (fun t => containsSubList s.data t) then false
    else if containsSubList s.data recalledPhrase then false
    else
      !(pyStripList (stripColonPrefixFrom (stripWxidPrefixFrom s.data))).isEmpty &&
        !startsWithList (pyStripList (stripColonPrefixFrom (stripWxidPrefixFrom s.data))) ['<']

/-- Result of a loop in a reader body: normal completion, or an exception
raised mid-loop; either way the accumulated state is still visible to the
enclosing handler. -/
inductive LoopResult (σ : Type) where
  | done (s : σ)
  | exc (e : PyExc) (s : σ)
deriving Repr, DecidableEq

/-- Outcome of a reader call that uses the scratch-copy protocol: the
documents returned, whether the fixed scratch file exists after the call,
the paths passed to `sqlite3.connect` during the call, and the error/warning
lines printed. -/
structure ReadOutcome where
  docs : List Document
  scratchExists : Bool
  connections : List String
  logs : List String
deriving Repr, DecidableEq

/-- A row of the browser-history query (readers.py lines 48-58). -/
structure ChromeRow where
  last_visit : Option String
  url : Option String
  title : Option String
  visit_count : Int
  typed_count : Int
  hidden : Int
deriving Repr, DecidableEq

/-- Effect oracle for one `ChromeHistoryReader.load_data` call: which files
exist, which effectful steps raise, and what the query returns.
`rowExc = some i` means processing the `i`-th row raises. -/
structure ChromeEnv where
  historyDbExists : Bool
  scratchInitially : Bool
  copyOk : Bool
  connectOk : Bool
  queryOk : Bool
  rows : List ChromeRow
  rowExc : Option Nat
deriving Repr, DecidableEq

/-- The fixed scratch path of the browser-history reader (line 35). -/
def chromeTempDbPath : String := "/tmp/leann_history_index_copy"

/-- Document built from one history row (lines 67-77). -/
def chromeRowDoc (r : ChromeRow) : Document :=
  { text := "\n[Title]: " ++ fStr r.title ++ "\n[URL]: " ++ fStr r.url ++
      "\n[Last Visited]: " ++ fStr r.last_visit ++
      "\n[Visits]: " ++ pyIntStr r.visit_count ++ "\n"
    metadata := [("title", .str (String.mk ((orEmpty r.title).data.take 150))),
                 ("url", .str (orEmpty r.url))] }

/-- The row loop of `ChromeHistoryReader.load_data` (lines 63-78): break on
the cap, skip rows with empty title or URL, append a document otherwise. -/
def chromeLoop (max_count : Int) (rowExc : Option Nat) :
    List ChromeRow → Nat → List Document → LoopResult (List Document)
  | [], _, docs => .done docs
  | r :: rest, i, docs =>
    if 0 < max_count ∧ max_count ≤ (docs.length : Int) then .done docs
    else if rowExc = some i then .exc .generic docs
    else if !truthyStr r.title || !truthyStr r.url then
      chromeLoop max_count rowExc rest (i + 1) docs
    else chromeLoop max_count rowExc rest (i + 1) (docs ++ [chromeRowDoc r])

/-- Model of `ChromeHistoryReader.load_data` (readers.py lines 23-90):
missing source warns and returns empty; otherwise the try block copies the
database to the fixed scratch path, connects to the copy, queries, and
iterates; the handler at lines 84-88 logs, removes the scratch file if it
exists, and returns the documents accumulated so far. On success lines 80-82
remove the scratch file. -/
def chromeLoadData (env : ChromeEnv) (chrome_profile_path : String) (max_count : Int) :
    PyResult ReadOutcome :=
  if !env.historyDbExists then
    .ok ⟨[], env.scratchInitially, [],
      ["⚠️ Browser history database not found at: " ++ (chrome_profile_path ++ "/History")]⟩
  else if !env.copyOk then
    .ok ⟨[], false, [], ["❌ Error reading browser history"]⟩
  else if !env.connectOk then
    .ok ⟨[], false, [], ["❌ Error reading browser history"]⟩
  else if !env.queryOk then
    .ok ⟨[], false, [chromeTempDbPath], ["❌ Error reading browser history"]⟩
  else
    match chromeLoop max_count env.rowExc env.rows 0 [] with
    | .exc _ docs => .ok ⟨docs, false, [chromeTempDbPath], ["❌ Error reading browser history"]⟩
    | .done docs => .ok ⟨docs, false, [chromeTempDbPath], []⟩

/-- A row of the mail-index query (lines 459-469). -/
structure MailRow where
  subject : Option String
  sender : Option String
  date : Option String
  snippet : Option String
deriving Repr, DecidableEq

/-- Effect oracle for one `AppleMailReader.load_data` call. -/
structure MailEnv where
  envelopeExists : Bool
  scratchInitially : Bool
  copyOk : Bool
  connectOk : Bool
  queryOk : Bool
  rows : List MailRow
  rowExc : Option Nat
deriving Repr, DecidableEq

/-- The fixed scratch path of the mail reader (line 443). -/
def mailTempDbPath : String := "/tmp/leann_mail_index_copy"

/-- Document built from one mail row (lines 478-483). -/
def mailRowDoc (r : MailRow) : Document :=
  { text := "Subject: " ++ fStr r.subject ++ "\nFrom: " ++ fStr r.sender ++
      "\nDate: " ++ fStr r.date ++ "\n\n" ++ orEmpty r.snippet
    metadata := [("subject", .str (orEmpty r.subject)),
                 ("sender", .str (orEmpty r.sender))] }

/-- The row loop of `AppleMailReader.load_data` (lines 473-483): a row is
skipped only when subject and snippet are both empty. -/
def mailLoop (rowExc : Option Nat) :
    List MailRow → Nat → List Document → LoopResult (List Document)
  | [], _, docs => .done docs
  | r :: rest, i, docs =>
    if rowExc = some i then .exc .generic docs
    else if !truthyStr r.subject && !truthyStr r.snippet then
      mailLoop rowExc rest (i + 1) docs
    else mailLoop rowExc rest (i + 1) (docs ++ [mailRowDoc r])

/-- Model of `AppleMailReader.load_data` (readers.py lines 438-492): the
query carries `LIMIT ?` bound to max_count (lines 468-470), and the handler
at lines 487-490 logs and removes the scratch file if it exists; on success
line 486 removes it. -/
def mailLoadData (env : MailEnv) (max_count : Int) : PyResult ReadOutcome :=
  if !env.envelopeExists then
    .ok ⟨[], env.scratchInitially, [], ["⚠️ Apple Mail Envelope Index not found."]⟩
  else if !env.copyOk then
    .ok ⟨[], false, [], ["❌ Error reading Apple Mail"]⟩
  else if !env.connectOk then
    .ok ⟨[], false, [], ["❌ Error reading Apple Mail"]⟩
  else if !env.queryOk then
    .ok ⟨[], false, [mailTempDbPath], ["❌ Error reading Apple Mail"]⟩
  else
    match mailLoop env.rowExc (limitRows max_count env.rows) 0 [] with
    | .exc _ docs => .ok ⟨docs, false, [mailTempDbPath], ["❌ Error reading Apple Mail"]⟩
    | .done docs => .ok ⟨docs, false, [mailTempDbPath], []⟩

/-- A row of the calendar query (lines 514-524); the datetime conversion
happens inside SQL, so the Python code sees strings or NULL. -/
structure CalRow where
  summary : Option String
  description : Option String
  location : Option String
  start : Option String
  finish : Option String
deriving Repr, DecidableEq

/-- Effect oracle for one `AppleCalendarReader.load_data` call. -/
structure CalEnv where
  cacheExists : Bool
  scratchInitially : Bool
  copyOk : Bool
  connectOk : Bool
  queryOk : Bool
  rows : List CalRow
  rowExc : Option Nat
deriving Repr, DecidableEq

/-- The fixed scratch path of the calendar reader (line 502). -/
def calendarTempDbPath : String := "/tmp/leann_calendar_index_copy"

/-- Optional string column as a metadata value (NULL becomes `None`). -/
def optStrVal (o : Option String) : PyVal :=
  match o with
  | some s => .str s
  | none => .null

/-- Document built from one calendar row (lines 533-534); the metadata
passes `summary` and `start` through unchanged. -/
def calRowDoc (r : CalRow) : Document :=
  { text := "Event: " ++ fStr r.summary ++ "\nStart: " ++ fStr r.start ++
      "\nEnd: " ++ fStr r.finish ++ "\nLocation: " ++ orEmpty r.location ++
      "\nDescription: " ++ orEmpty r.description
    metadata := [("event", optStrVal r.summary), ("start", optStrVal r.start)] }

/-- The row loop of `AppleCalendarReader.load_data` (lines 528-534): a row
is skipped when its summary is empty. -/
def calLoop (rowExc : Option Nat) :
    List CalRow → Nat → List Document → LoopResult (List Document)
  | [], _, docs => .done docs
  | r :: rest, i, docs =>
    if rowExc = some i then .exc .generic docs
    else if !truthyStr r.summary then calLoop rowExc rest (i + 1) docs
    else calLoop rowExc rest (i + 1) (docs ++ [calRowDoc r])

/-- Model of `AppleCalendarReader.load_data` (readers.py lines 498-543). -/
def calendarLoadData (env : CalEnv) (max_count : Int) : PyResult ReadOutcome :=
  if !env.cacheExists then
    .ok ⟨[], env.scratchInitially, [], ["⚠️ Apple Calendar Cache not found."]⟩
  else if !env.copyOk then
    .ok ⟨[], false, [], ["❌ Error reading Apple Calendar"]⟩
  else if !env.connectOk then
    .ok ⟨[], false, [], ["❌ Error reading Apple Calendar"]⟩
  else if !env.queryOk then
    .ok ⟨[], false, [calendarTempDbPath], ["❌ Error reading Apple Calendar"]⟩
  else
    match calLoop env.rowExc (limitRows max_count env.rows) 0 [] with
    | .exc _ docs => .ok ⟨docs, false, [calendarTempDbPath], ["❌ Error reading Apple Calendar"]⟩
    | .done docs => .ok ⟨docs, false, [calendarTempDbPath], []⟩

/-- A row of the iMessage join query (lines 208-225); LEFT JOINs make the
chat and handle columns nullable. -/
structure ImsgRow where
  message_id : Int
  text : String
  date : Int
  is_from_me : Int
  service : Option String
  chat_identifier : Option String
  chat_display_name : Option String
  handle_id : Option String
  chat_id : Option Int
deriving Repr, DecidableEq

/-- The per-message dict built at lines 244-255. -/
structure Msg where
  message_id : Int
  text : String
  timestamp : String
  is_from_me : Bool
  service : String
  chat_identifier : String
  chat_display_name : String
  handle_id : String
  contact_name : String
  chat_id : Option Int
deriving Repr, DecidableEq

/-- Building the dict for one row (lines 244-255); the timestamp conversion
can raise (which the enclosing `except Exception` catches). -/
def rowToMsg (r : ImsgRow) : PyResult Msg :=
  match convertCocoaTimestamp r.date with
  | .raised e => .raised e
  | .ok ts => .ok
    { message_id := r.message_id
      text := r.text
      timestamp := ts
      is_from_me := r.is_from_me != 0
      service := orStr r.service "iMessage"
      chat_identifier := orStr r.chat_identifier "Unknown"
      chat_display_name := orStr r.chat_display_name "Unknown Chat"
      handle_id := orStr r.handle_id "Unknown"
      contact_name := getContactName (orStr r.handle_id "")
      chat_id := r.chat_id }

/-- The row loop at lines 231-256. -/
def imsgRowsToMsgs : List ImsgRow → PyResult (List Msg)
  | [] => .ok []
  | r :: rest =>
    match rowToMsg r with
    | .raised e => .raised e
    | .ok m =>
      match imsgRowsToMsgs rest with
      | .raised e => .raised e
      | .ok ms => .ok (m :: ms)

/-- Effect oracle for one `IMessageReader` call; `dbPath` is the resolved
live chat.db path (`str(db_path)` at line 204). -/
structure ImsgEnv where
  dbExists : Bool
  connectOk : Bool
  queryOk : Bool
  rows : List ImsgRow
  dbPath : String
deriving Repr, DecidableEq

/-- Outcome of `_read_messages_from_db`. -/
structure ImsgReadOutcome where
  messages : List Msg
  connections : List String
  logs : List String
deriving Repr, DecidableEq

/-- Model of `IMessageReader._read_messages_from_db` (readers.py lines
188-266): it connects DIRECTLY to the given live chat.db path (line 204,
`sqlite3.connect(str(db_path))`) — no scratch copy is made — and on any
exception logs and returns the empty list. -/
def readMessagesFromDb (env : ImsgEnv) : ImsgReadOutcome :=
  if !env.dbExists then ⟨[], [], ["iMessage database not found at: " ++ env.dbPath]⟩
  else if !env.connectOk then ⟨[], [], ["Error reading iMessage database"]⟩
  else if !env.queryOk then ⟨[], [env.dbPath], ["Error reading iMessage database"]⟩
  else
    match imsgRowsToMsgs env.rows with
    | .raised _ => ⟨[], [env.dbPath], ["Unexpected error reading iMessage database"]⟩
    | .ok ms => ⟨ms, [env.dbPath], []⟩

/-- One step of the dict insertion in `_group_messages_by_chat`
(lines 278-283). -/
def groupInsert (chats : List (Option Int × List Msg)) (m : Msg) :
    List (Option Int × List Msg) :=
  if chats.any (fun p => p.1 == m.chat_id) then
    chats.map (fun p => if p.1 == m.chat_id then (p.1, p.2 ++ [m]) else p)
  else chats ++ [(m.chat_id, [m])]

/-- Model of `IMessageReader._group_messages_by_chat` (lines 268-285): a
Python dict keyed by chat_id, in key insertion order, each value in input
order. -/
def groupMessagesByChat (messages : List Msg) : List (Option Int × List Msg) :=
  messages.foldl groupInsert []

/-- One rendered message block of the concatenated body (lines 308-322). -/
def msgPart (m : Msg) : String :=
  let pfx := if m.is_from_me then "[You]" else "[" ++ m.contact_name ++ "]"
  let pfx2 := if m.timestamp ≠ "Unknown" then pfx ++ " (" ++ m.timestamp ++ ")" else pfx
  pfx2 ++ ": " ++ m.text

/-- Model of `_create_concatenated_content` (lines 287-332); the chat_id
parameter is unused by the source body as well. -/
def createConcatenatedContent (_chat_id : Option Int) (messages : List Msg) : String :=
  match messages with
  | [] => ""
  | first :: rest =>
    "Chat: " ++ first.chat_display_name ++ "\nIdentifier: " ++ first.chat_identifier ++
      "\nMessages (" ++ pyNatStr (first :: rest).length ++ " messages):\n\n" ++
      joinSep "\n\n" ((first :: rest).map msgPart) ++ "\n"

/-- Placeholder message (never observed: the pipeline only builds documents
for non-empty groups). -/
def defaultMsg : Msg :=
  ⟨0, "", "", false, "", "", "", "", "", Option.none⟩

/-- Distinct non-self contact names (the set comprehension at lines
404-406); Python set iteration order is modelled as first-insertion order. -/
def nonSelfNames (ms : List Msg) : List String :=
  firstSeen ((ms.filter (fun m => !m.is_from_me)).map (fun m => m.contact_name))

/-- Metadata dict of a concatenated conversation document (lines 393-407). -/
def chatMetadata (chat_id : Option Int) (ms : List Msg) : List (String × PyVal) :=
  let first := ms.headD defaultMsg
  let last := ms.getLastD defaultMsg
  [("source", .str "iMessage"),
   ("chat_id", optIntVal chat_id),
   ("chat_name", .str first.chat_display_name),
   ("chat_identifier", .str first.chat_identifier),
   ("message_count", .int ms.length),
   ("first_message_date", .str first.timestamp),
   ("last_message_date", .str last.timestamp),
   ("participants", .strList (nonSelfNames ms))]

/-- The document emitted for one conversation in concatenated mode
(lines 390-410). -/
def mkChatDocument (chat_id : Option Int) (ms : List Msg) : Document :=
  ⟨createConcatenatedContent chat_id ms, chatMetadata chat_id ms⟩

/-- Model of `_create_individual_content` (lines 334-355). -/
def createIndividualContent (m : Msg) : String :=
  let sender := if m.is_from_me then "You" else m.contact_name
  "Message from " ++ sender ++ " in chat \"" ++ m.chat_display_name ++ "\"\nTime: " ++
    m.timestamp ++ "\nContent: " ++ m.text ++ "\n"

/-- The document emitted for one message in individual mode (lines 414-430). -/
def mkIndividualDocument (m : Msg) : Document :=
  ⟨createIndividualContent m,
   [("source", .str "iMessage"),
    ("message_id", .int m.message_id),
    ("chat_id", optIntVal m.chat_id),
    ("chat_name", .str m.chat_display_name),
    ("chat_identifier", .str m.chat_identifier),
    ("timestamp", .str m.timestamp),
    ("is_from_me", .bool m.is_from_me),
    ("contact_name", .str m.contact_name),
    ("service", .str m.service)]⟩

/-- The pure document-building part of `IMessageReader.load_data`
(lines 382-432), run after the messages have been read. -/
def imessageBuildDocs (concatenate_conversations : Bool) (messages : List Msg) :
    List Document :=
  if concatenate_conversations then
    (groupMessagesByChat messages).filterMap (fun p =>
      if p.2.isEmpty then Option.none else some (mkChatDocument p.1 p.2))
  else
    messages.map mkIndividualDocument

/-- Outcome of `IMessageReader.load_data`. -/
structure ImsgLoadOutcome where
  docs : List Document
  connections : List String
  logs : List String
deriving Repr, DecidableEq

/-- Model of `IMessageReader.load_data` (readers.py lines 357-432): keyword
arguments such as max_count are accepted through load_kwargs and unused
(line 364), so no result cap is ever applied. -/
def imessageLoadData (env : ImsgEnv) (concatenate_conversations : Bool)
    (_max_count_kwarg : Int) : PyResult ImsgLoadOutcome :=
  if (readMessagesFromDb env).messages.isEmpty then
    .ok ⟨[], (readMessagesFromDb env).connections, (readMessagesFromDb env).logs⟩
  else
    .ok ⟨imessageBuildDocs concatenate_conversations (readMessagesFromDb env).messages,
         (readMessagesFromDb env).connections, (readMessagesFromDb env).logs⟩

/-- A WeChat message record as decoded from an export JSON file. -/
structure WMessage where
  content : Payload
  message : String
  createTime : Int
  isSentFromSelf : Bool
deriving Repr, DecidableEq

/-- One export file: either its parse/processing raises, or it holds a
contact name (the filename stem) and a message list. -/
inductive WFile where
  | parseError (name : String)
  | chat (name : String) (messages : List WMessage)
deriving Repr, DecidableEq

/-- Effect oracle for one `WeChatHistoryReader.load_data` call. -/
structure WeChatEnv where
  dirExists : Bool
  globOk : Bool
  files : List WFile
deriving Repr, DecidableEq

/-- Outcome of `WeChatHistoryReader.load_data`. -/
structure WOutcome where
  docs : List Document
  logs : List String
deriving Repr, DecidableEq

/-- Timestamp rendering at lines 615-622: a falsy (zero) createTime gives
`"Unknown"`; otherwise `fromtimestamp` may raise, which the per-file
handler catches. -/
def wechatTimeStr (t : Int) : PyResult String :=
  if t = 0 then .ok "Unknown" else fromtimestampFmt t

/-- The message loop of one export file (lines 607-624): qualifying
messages are rendered as `"(time) [Me|Contact]: text"`. -/
def wechatMessagesText : List WMessage → PyResult (List String)
  | [] => .ok []
  | m :: rest =>
    if isTextMessage m.content then
      let e := extractReadableText m.content
      let readable := if e = "" then m.message else e
      if (pyStripList readable.data).isEmpty then wechatMessagesText rest
      else
        match wechatTimeStr m.createTime with
        | .raised ex => .raised ex
        | .ok ts =>
          let sender := if m.isSentFromSelf then "[Me]" else "[Contact]"
          match wechatMessagesText rest with
          | .raised ex => .raised ex
          | .ok more => .ok (("(" ++ ts ++ ") " ++ sender ++ ": " ++ readable) :: more)
    else wechatMessagesText rest

/-- The per-message emission loop of individual mode (lines 634-640). -/
def wechatIndivLoop (max_count : Int) (contact_name : String) :
    List String → List Document → Nat → (List Document × Nat)
  | [], docs, count => (docs, count)
  | t :: rest, docs, count =>
    if 0 < max_count ∧ max_count ≤ (count : Int) then (docs, count)
    else wechatIndivLoop max_count contact_name rest
      (docs ++ [⟨t, [("contact_name", .str contact_name)]⟩]) (count + 1)

/-- The file loop of `WeChatHistoryReader.load_data` (lines 599-642): break
on the document cap, per-file failures are logged and skipped. -/
def wechatFilesLoop (max_count : Int) (concatenate_messages : Bool) :
    List WFile → List Document → Nat → List String → (List Document × Nat × List String)
  | [], docs, count, logs => (docs, count, logs)
  | f :: rest, docs, count, logs =>
    if 0 < max_count ∧ max_count ≤ (count : Int) then (docs, count, logs)
    else
      match f with
      | .parseError name =>
        wechatFilesLoop max_count concatenate_messages rest docs count
          (logs ++ ["Error reading " ++ name])
      | .chat name msgs =>
        match wechatMessagesText msgs with
        | .raised _ =>
          wechatFilesLoop max_count concatenate_messages rest docs count
            (logs ++ ["Error reading " ++ name])
        | .ok texts =>
          if texts.isEmpty then
            wechatFilesLoop max_count concatenate_messages rest docs count logs
          else if concatenate_messages then
            wechatFilesLoop max_count concatenate_messages rest
              (docs ++ [⟨"Contact: " ++ name ++ "\n\n" ++ joinSep "\n" texts,
                        [("contact_name", .str name)]⟩])
              (count + 1) logs
          else
            wechatFilesLoop max_count concatenate_messages rest
              (wechatIndivLoop max_count name texts docs count).1
              (wechatIndivLoop max_count name texts docs count).2 logs

/-- Model of `WeChatHistoryReader.load_data` (readers.py lines 588-646). -/
def wechatLoadData (env : WeChatEnv) (wechat_export_dir : String) (max_count : Int)
    (concatenate_messages : Bool) : PyResult WOutcome :=
  if !env.dirExists then
    .ok ⟨[], ["WeChat export directory not found at: " ++ wechat_export_dir]⟩
  else if !env.globOk then
    .ok ⟨[], ["Error reading WeChat history"]⟩
  else
    .ok ⟨(wechatFilesLoop max_count concatenate_messages env.files [] 0 []).1,
         (wechatFilesLoop max_count concatenate_messages env.files [] 0 []).2.2⟩

/-- Model of `SlackMCPReader.load_data` (line 662): a stub that always
returns no documents. -/
def slackMcpLoadData (_channels : List String) : PyResult (List Document) := .ok []

/-- Model of `TwitterMCPReader.load_data` (line 672): a stub. -/
def twitterMcpLoadData (_max_bookmarks : Int) : PyResult (List Document) := .ok []

/-- Model of `ChatGPTReader.load_data` (line 679): a stub. -/
def chatgptLoadData (_export_path : String) : PyResult (List Document) := .ok []

/-- Model of `ClaudeReader.load_data` (line 686): a stub. -/
def claudeLoadData (_export_path : String) : PyResult (List Document) := .ok []

/-- Default max_count of `ChromeHistoryReader.load_data` (line 24). -/
def chromeDefaultMaxCount : Int := 1000

/-- Default max_count of `AppleMailReader.load_data` (line 438). -/
def mailDefaultMaxCount : Int := 1000

/-- Default max_count of `AppleCalendarReader.load_data` (line 498). -/
def calendarDefaultMaxCount : Int := 1000

/-- Default max_count of `WeChatHistoryReader.load_data` (line 589). -/
def wechatDefaultMaxCount : Int := 1000

/-- Documents of a reader outcome (empty if the call raised). -/
def docsOf : PyResult ReadOutcome → List Document
  | .ok r => r.docs
  | .raised _ => []

/-- Connection paths of a reader outcome. -/
def connectionsOf : PyResult ReadOutcome → List String
  | .ok r => r.connections
  | .raised _ => []

/-- A browser-history environment whose query raises. -/
def chromeEnvQueryFail : ChromeEnv :=
  ⟨true, false, true, true, false, [], Option.none⟩

/-- A mail environment whose query raises. -/
def mailEnvQueryFail : MailEnv :=
  ⟨true, false, true, true, false, [], Option.none⟩

/-- A calendar environment whose query raises. -/
def calEnvQueryFail : CalEnv :=
  ⟨true, false, true, true, false, [], Option.none⟩

/-- A WeChat environment whose directory listing raises. -/
def wechatEnvGlobFail : WeChatEnv := ⟨true, false, []⟩

/-- An iMessage environment whose query raises, with the default live
macOS chat.db path. -/
def imsgEnvQueryFail : ImsgEnv :=
  ⟨true, true, false, [], "/Users/u/Library/Messages/chat.db"⟩

/-- An iMessage environment where everything succeeds and the database is
the live macOS chat.db. -/
def imsgEnvLive : ImsgEnv :=
  ⟨true, true, true, [], "/Users/u/Library/Messages/chat.db"⟩

/-- An iMessage row in chat 1. -/
def imsgRowChat1 : ImsgRow :=
  ⟨1, "hello", 0, 0, Option.none, some "alice", some "Alice", some "+15551234567", some 1⟩

/-- An iMessage row in chat 2. -/
def imsgRowChat2 : ImsgRow :=
  ⟨2, "world", 0, 0, Option.none, some "bob", some "Bob", some "+15557654321", some 2⟩

/-- An iMessage environment whose rows span two distinct chats. -/
def imsgEnvTwoChats : ImsgEnv :=
  ⟨true, true, true, [imsgRowChat1, imsgRowChat2], "/Users/u/Library/Messages/chat.db"⟩

/-- A mail environment with one well-formed row and no failures. -/
def mailEnvOneRow : MailEnv :=
  ⟨true, false, true, true, true,
    [⟨some "Hi", some "a@b.c", some "2024-01-01 00:00:00", some "snippet"⟩], Option.none⟩

/-- A calendar environment whose single event row has a NULL start date
(SQL `datetime(NULL, ...)` yields NULL). -/
def calEnvNullStart : CalEnv :=
  ⟨true, false, true, true, true,
    [⟨some "Meeting", Option.none, Option.none, Option.none, Option.none⟩], Option.none⟩

/-- A browser-history environment with two valid rows and no failures. -/
def chromeEnvTwoRows : ChromeEnv :=
  ⟨true, false, true, true, true,
    [⟨some "2024-01-02 00:00:00", some "https://a.example", some "A", 1, 0, 0⟩,
     ⟨some "2024-01-01 00:00:00", some "https://b.example", some "B", 2, 0, 0⟩],
    Option.none⟩

/-- The document list carried by a loop result (visible to the handler on
both normal completion and an exception). -/
def loopDocs : LoopResult (List Document) → List Document
  | .done d => d
  | .exc _ d => d

/-- Documents of a WeChat outcome. -/
def wdocsOf : PyResult WOutcome → List Document
  | .ok r => r.docs
  | .raised _ => []

/-- Comparison of optional chat ids as the SQL `ORDER BY c.ROWID` sorts
them (NULL first). -/
def optIntLeB : Option Int → Option Int → Bool
  | Option.none, _ => true
  | some _, Option.none => false
  | some a, some b => a ≤ b

/-- Executable lexicographic comparison of char lists (string ordering;
timestamp strings of the form "YYYY-MM-DD HH:MM:SS" compare
chronologically under it). -/
def charListLe : List Char → List Char → Bool
  | [], _ => true
  | _ :: _, [] => false
  | a :: as, b :: bs => if a = b then charListLe as bs else decide (a < b)

/-- Executable string comparison. -/
def strLeB (a b : String) : Bool := charListLe a.data b.data

/-- The (chat_id, timestamp) lexicographic order produced by the messaging
query (`ORDER BY c.ROWID, m.date`), on the per-message dicts. -/
def msgOrderB (a b : Msg) : Bool :=
  if a.chat_id = b.chat_id then strLeB a.timestamp b.timestamp
  else optIntLeB a.chat_id b.chat_id

/-- A concrete chat-1 message from Alice. -/
def msgA : Msg :=
  ⟨1, "hi", "2024-01-01 10:00:00", false, "iMessage", "alice", "Alice",
   "+15551234567", "+15551234567", some 1⟩

/-- A concrete chat-1 message from self. -/
def msgB : Msg :=
  ⟨2, "yo", "2024-01-01 11:00:00", true, "iMessage", "alice", "Alice",
   "Unknown", "Unknown", some 1⟩

/-- A concrete chat-2 message from Bob. -/
def msgC : Msg :=
  ⟨3, "ok", "2024-01-01 09:00:00", false, "iMessage", "bob", "Bob",
   "+15557654321", "+15557654321", some 2⟩

/-- A concrete message sequence spanning two chats, sorted by
(chat_id, timestamp). -/
def c8WitnessMsgs : List Msg := [msgA, msgB, msgC]

/-! ### Helper lemmas -/

theorem readMessagesFromDb_fail (env : ImsgEnv)
    (h : env.connectOk = false ∨ env.queryOk = false ∨
      (∃ e, imsgRowsToMsgs env.rows = .raised e) ∨ env.dbExists = false) :
    (readMessagesFromDb env).messages = [] ∧ (readMessagesFromDb env).logs ≠ [] := by
  unfold readMessagesFromDb
  split
  · exact ⟨rfl, by simp⟩
  next hdb =>
    split
    · exact ⟨rfl, by simp⟩
    next hconn =>
      split
      · exact ⟨rfl, by simp⟩
      next hq =>
        split
        · exact ⟨rfl, by simp⟩
        next ms heq =>
          rcases h with h | h | ⟨e, he⟩ | h <;> simp_all

/-! ### Claim theorems -/

/-- C1: for every extractor that uses a scratch copy (browser history, mail
index, calendar cache) and every execution path of load — success, and
exception raised during copy, connect, query, or row processing — no scratch
file exists at the fixed scratch path after load returns (assuming the
scratch path was free before the call, since the source-missing early return
touches no file). -/
theorem c1_no_scratch_after_load (cenv : ChromeEnv) (profile : String) (cmc : Int)
    (menv : MailEnv) (mmc : Int) (aenv : CalEnv) (amc : Int)
    (hc : cenv.scratchInitially = false) (hm : menv.scratchInitially = false)
    (ha : aenv.scratchInitially = false) :
    (∃ out, chromeLoadData cenv profile cmc = .ok out ∧ out.scratchExists = false) ∧
    (∃ out, mailLoadData menv mmc = .ok out ∧ out.scratchExists = false) ∧
    (∃ out, calendarLoadData aenv amc = .ok out ∧ out.scratchExists = false) := by
  refine ⟨?_, ?_, ?_⟩
  · unfold chromeLoadData
    split
    · exact ⟨_, rfl, hc⟩
    split
    · exact ⟨_, rfl, rfl⟩
    split
    · exact ⟨_, rfl, rfl⟩
    split
    · exact ⟨_, rfl, rfl⟩
    split
    · exact ⟨_, rfl, rfl⟩
    · exact ⟨_, rfl, rfl⟩
  · unfold mailLoadData
    split
    · exact ⟨_, rfl, hm⟩
    split
    · exact ⟨_, rfl, rfl⟩
    split
    · exact ⟨_, rfl, rfl⟩
    split
    · exact ⟨_, rfl, rfl⟩
    split
    · exact ⟨_, rfl, rfl⟩
    · exact ⟨_, rfl, rfl⟩
  · unfold calendarLoadData
    split
    · exact ⟨_, rfl, ha⟩
    split
    · exact ⟨_, rfl, rfl⟩
    split
    · exact ⟨_, rfl, rfl⟩
    split
    · exact ⟨_, rfl, rfl⟩
    split
    · exact ⟨_, rfl, rfl⟩
    · exact ⟨_, rfl, rfl⟩

/-- Witness for C1 at concrete environments (query failure mid-call). -/
theorem c1_no_scratch_after_load_witness :
    chromeEnvQueryFail.scratchInitially = false ∧
    mailEnvQueryFail.scratchInitially = false ∧
    calEnvQueryFail.scratchInitially = false ∧
    ((∃ out, chromeLoadData chromeEnvQueryFail "/home/u/profile" 5 = .ok out ∧
        out.scratchExists = false) ∧
     (∃ out, mailLoadData mailEnvQueryFail 5 = .ok out ∧ out.scratchExists = false) ∧
     (∃ out, calendarLoadData calEnvQueryFail 5 = .ok out ∧ out.scratchExists = false)) :=
  ⟨rfl, rfl, rfl,
   c1_no_scratch_after_load chromeEnvQueryFail "/home/u/profile" 5 mailEnvQueryFail 5
     calEnvQueryFail 5 rfl rfl rfl⟩

/-- C3: no extractor's load ever propagates an exception (every modelled
load returns normally for every environment and input), and when an I/O or
schema failure hits the whole source (copy, connect, query, or directory
listing raises), the call returns zero documents and logs the cause. -/
theorem c3_never_raises_whole_source_empty
    (cenv : ChromeEnv) (profile : String) (cmc : Int)
    (menv : MailEnv) (mmc : Int) (aenv : CalEnv) (amc : Int)
    (wenv : WeChatEnv) (wdir : String) (wmc : Int) (wcat : Bool)
    (ienv : ImsgEnv) (icat : Bool) (ikw : Int)
    (chs : List String) (tmax : Int) (gpath cpath : String) :
    (∃ out, chromeLoadData cenv profile cmc = .ok out ∧
      (cenv.copyOk = false ∨ cenv.connectOk = false ∨ cenv.queryOk = false →
        out.docs = [] ∧ out.logs ≠ [])) ∧
    (∃ out, mailLoadData menv mmc = .ok out ∧
      (menv.copyOk = false ∨ menv.connectOk = false ∨ menv.queryOk = false →
        out.docs = [] ∧ out.logs ≠ [])) ∧
    (∃ out, calendarLoadData aenv amc = .ok out ∧
      (aenv.copyOk = false ∨ aenv.connectOk = false ∨ aenv.queryOk = false →
        out.docs = [] ∧ out.logs ≠ [])) ∧
    (∃ out, wechatLoadData wenv wdir wmc wcat = .ok out ∧
      (wenv.globOk = false → out.docs = [] ∧ out.logs ≠ [])) ∧
    (∃ out, imessageLoadData ienv icat ikw = .ok out ∧
      (ienv.connectOk = false ∨ ienv.queryOk = false ∨
          (∃ e, imsgRowsToMsgs ienv.rows = .raised e) →
        out.docs = [] ∧ out.logs ≠ [])) ∧
    slackMcpLoadData chs = .ok [] ∧ twitterMcpLoadData tmax = .ok [] ∧
    chatgptLoadData gpath = .ok [] ∧ claudeLoadData cpath = .ok [] := by
  refine ⟨?_, ?_, ?_, ?_, ?_, rfl, rfl, rfl, rfl⟩
  · unfold chromeLoadData
    split
    · exact ⟨_, rfl, fun _ => ⟨rfl, by simp⟩⟩
    split
    · exact ⟨_, rfl, fun _ => ⟨rfl, by simp⟩⟩
    split
    · exact ⟨_, rfl, fun _ => ⟨rfl, by simp⟩⟩
    split
    · exact ⟨_, rfl, fun _ => ⟨rfl, by simp⟩⟩
    next hcp hcn hq =>
      split
      · refine ⟨_, rfl, fun hor => ?_⟩
        rcases hor with h | h | h <;> simp_all
      · refine ⟨_, rfl, fun hor => ?_⟩
        rcases hor with h | h | h <;> simp_all
  · unfold mailLoadData
    split
    · exact ⟨_, rfl, fun _ => ⟨rfl, by simp⟩⟩
    split
    · exact ⟨_, rfl, fun _ => ⟨rfl, by simp⟩⟩
    split
    · exact ⟨_, rfl, fun _ => ⟨rfl, by simp⟩⟩
    split
    · exact ⟨_, rfl, fun _ => ⟨rfl, by simp⟩⟩
    next hcp hcn hq =>
      split
      · refine ⟨_, rfl, fun hor => ?_⟩
        rcases hor with h | h | h <;> simp_all
      · refine ⟨_, rfl, fun hor => ?_⟩
        rcases hor with h | h | h <;> simp_all
  · unfold calendarLoadData
    split
    · exact ⟨_, rfl, fun _ => ⟨rfl, by simp⟩⟩
    split
    · exact ⟨_, rfl, fun _ => ⟨rfl, by simp⟩⟩
    split
    · exact ⟨_, rfl, fun _ => ⟨rfl, by simp⟩⟩
    split
    · exact ⟨_, rfl, fun _ => ⟨rfl, by simp⟩⟩
    next hcp hcn hq =>
      split
      · refine ⟨_, rfl, fun hor => ?_⟩
        rcases hor with h | h | h <;> simp_all
      · refine ⟨_, rfl, fun hor => ?_⟩
        rcases hor with h | h | h <;> simp_all
  · unfold wechatLoadData
    split
    · exact ⟨_, rfl, fun _ => ⟨rfl, by simp⟩⟩
    split
    · exact ⟨_, rfl, fun _ => ⟨rfl, by simp⟩⟩
    next hdir hglob =>
      refine ⟨_, rfl, fun hg => ?_⟩
      simp_all
  · unfold imessageLoadData
    split
    next hemp =>
      refine ⟨_, rfl, fun hor => ⟨rfl, ?_⟩⟩
      exact (readMessagesFromDb_fail ienv (by tauto)).2
    next hemp =>
      refine ⟨_, rfl, fun hor => ?_⟩
      exact absurd (by simpa [List.isEmpty_iff] using
        (readMessagesFromDb_fail ienv (by tauto)).1) hemp

/-- Witness for C3: concrete environments whose query or listing fails,
together with the concrete empty results. -/
theorem c3_never_raises_whole_source_empty_witness :
    ((∃ out, chromeLoadData chromeEnvQueryFail "/home/u/profile" 7 = .ok out ∧
      (chromeEnvQueryFail.copyOk = false ∨ chromeEnvQueryFail.connectOk = false ∨
          chromeEnvQueryFail.queryOk = false →
        out.docs = [] ∧ out.logs ≠ [])) ∧
    (∃ out, mailLoadData mailEnvQueryFail 7 = .ok out ∧
      (mailEnvQueryFail.copyOk = false ∨ mailEnvQueryFail.connectOk = false ∨
          mailEnvQueryFail.queryOk = false →
        out.docs = [] ∧ out.logs ≠ [])) ∧
    (∃ out, calendarLoadData calEnvQueryFail 7 = .ok out ∧
      (calEnvQueryFail.copyOk = false ∨ calEnvQueryFail.connectOk = false ∨
          calEnvQueryFail.queryOk = false →
        out.docs = [] ∧ out.logs ≠ [])) ∧
    (∃ out, wechatLoadData wechatEnvGlobFail "/tmp/wechat" 7 true = .ok out ∧
      (wechatEnvGlobFail.globOk = false → out.docs = [] ∧ out.logs ≠ [])) ∧
    (∃ out, imessageLoadData imsgEnvQueryFail true 7 = .ok out ∧
      (imsgEnvQueryFail.connectOk = false ∨ imsgEnvQueryFail.queryOk = false ∨
          (∃ e, imsgRowsToMsgs imsgEnvQueryFail.rows = .raised e) →
        out.docs = [] ∧ out.logs ≠ [])) ∧
    slackMcpLoadData ["general"] = .ok [] ∧ twitterMcpLoadData 100 = .ok [] ∧
    chatgptLoadData "/tmp/e.html" = .ok [] ∧ claudeLoadData "/tmp/e.json" = .ok []) ∧
    chromeEnvQueryFail.queryOk = false ∧
    docsOf (chromeLoadData chromeEnvQueryFail "/home/u/profile" 7) = [] :=
  ⟨c3_never_raises_whole_source_empty chromeEnvQueryFail "/home/u/profile" 7
      mailEnvQueryFail 7 calEnvQueryFail 7 wechatEnvGlobFail "/tmp/wechat" 7 true
      imsgEnvQueryFail true 7 ["general"] 100 "/tmp/e.html" "/tmp/e.json",
   rfl, by decide⟩

/-- C5 (the code contradicts the claim and the converter's own intent): the
converter maps 0 to "Unknown" and degrades ValueError/OSError to "Unknown",
but an OverflowError — raised by CPython for the float true-division at huge
magnitudes and by fromtimestamp beyond the platform time_t range — is not in
the caught (ValueError, OSError) tuple and propagates to the caller. -/
theorem c5_convert_timestamp_overflow_bug :
    convertCocoaTimestamp 0 = .ok "Unknown" ∧
    convertCocoaTimestamp (10 ^ 30) = .raised .overflowError ∧
    convertCocoaTimestamp floatOverflowNs = .raised .overflowError ∧
    convertCocoaTimestamp (10 ^ 21) = .ok "Unknown" := by
  exact ⟨by decide, by decide, by decide, by decide⟩

/-- C2 counterexample: the messaging extractor opens its sqlite connection
directly against the live chat.db source path (readers.py line 204) — there
is no scratch copy, and the opened path is none of the scratch paths used by
the copy-based extractors. -/
theorem c2_counterexample_live_connection :
    imessageLoadData imsgEnvLive true 0 =
      .ok ⟨[], ["/Users/u/Library/Messages/chat.db"], []⟩ ∧
    imsgEnvLive.dbPath = "/Users/u/Library/Messages/chat.db" ∧
    imsgEnvLive.dbPath ≠ chromeTempDbPath ∧
    imsgEnvLive.dbPath ≠ mailTempDbPath ∧
    imsgEnvLive.dbPath ≠ calendarTempDbPath := by
  exact ⟨by decide, rfl, by decide, by decide, by decide⟩

/-- C9 counterexample: a calendar row with a non-empty summary but a NULL
start renders a Document whose "start" metadata value is the null
placeholder (Python None), not "Unknown" and not omitted. -/
theorem c9_counterexample_null_start :
    calendarLoadData calEnvNullStart 1000 =
      .ok ⟨[⟨"Event: Meeting\nStart: None\nEnd: None\nLocation: \nDescription: ",
             [("event", .str "Meeting"), ("start", PyVal.null)]⟩],
           false, [calendarTempDbPath], []⟩ ∧
    ("start", PyVal.null) ∈
      (calRowDoc ⟨some "Meeting", Option.none, Option.none, Option.none,
        Option.none⟩).metadata := by
  exact ⟨by decide, by decide⟩

/-- C6 counterexample: the handle "a1234567890" is not an email, does not
start with "+", and is not digit-only — by the claim it should pass through
unchanged — yet the code extracts its 10 digit characters and formats them. -/
theorem c6_counterexample_digit_extraction :
    getContactName "a1234567890" = "(123) 456-7890" ∧
    getContactName "a1234567890" ≠ "a1234567890" := by
  exact ⟨by decide, by decide⟩

/-- C7 counterexample: the string "hi <img>" is classified not-text (it
contains the "<img" tag), yet readable-text extraction — which only rejects
tags at the start of the cleaned string — returns the non-empty string
"hi <img>", so the claimed equivalence fails. -/
theorem c7_counterexample_tagged_string :
    isTextMessage (.str "hi <img>") = false ∧
    extractReadableText (.str "hi <img>") = "hi <img>" := by
  exact ⟨by decide, by decide⟩

/-- C4 counterexample: the messaging extractor accepts a max_count keyword
argument but never applies a cap — rows spanning two chats yield two
documents even with max_count 1 — and the mail extractor feeds max_count to
SQL LIMIT, where 0 yields zero rows rather than an unlimited result. -/
theorem c4_counterexample_cap :
    (∃ out, imessageLoadData imsgEnvTwoChats true 1 = .ok out ∧ out.docs.length = 2) ∧
    (∃ out, mailLoadData mailEnvOneRow 0 = .ok out ∧ out.docs = []) ∧
    mailEnvOneRow.rows ≠ [] := by
  refine ⟨⟨_, rfl, ?_⟩, ⟨_, rfl, ?_⟩, ?_⟩ <;> decide

theorem chromeLoop_cap (mc : Int) (rexc : Option Nat) (hmc : 0 < mc) :
    ∀ (rows : List ChromeRow) (i : Nat) (docs : List Document),
      (docs.length : Int) ≤ mc →
      ((loopDocs (chromeLoop mc rexc rows i docs)).length : Int) ≤ mc := by
  intro rows
  induction rows with
  | nil => intro i docs h; simpa [chromeLoop, loopDocs] using h
  | cons r rest ih =>
    intro i docs h
    simp only [chromeLoop]
    split
    · simpa [loopDocs] using h
    next hbrk =>
      split
      · simpa [loopDocs] using h
      split
      · exact ih (i + 1) docs h
      · refine ih (i + 1) (docs ++ [chromeRowDoc r]) ?_
        have hlt : (docs.length : Int) < mc := by
          rcases not_and_or.mp hbrk with h1 | h2
          · exact absurd hmc h1
          · exact lt_of_not_le h2
        have hlen : (docs ++ [chromeRowDoc r]).length = docs.length + 1 := by simp
        omega

theorem chromeLoadData_cap (env : ChromeEnv) (profile : String) (mc : Int) (hmc : 0 < mc) :
    ((docsOf (chromeLoadData env profile mc)).length : Int) ≤ mc := by
  unfold chromeLoadData
  split
  · simp [docsOf]; omega
  split
  · simp [docsOf]; omega
  split
  · simp [docsOf]; omega
  split
  · simp [docsOf]; omega
  · split
    next e docs heq =>
      have h := chromeLoop_cap mc env.rowExc hmc env.rows 0 [] (by simp; omega)
      rw [heq] at h
      simpa [docsOf, loopDocs] using h
    next docs heq =>
      have h := chromeLoop_cap mc env.rowExc hmc env.rows 0 [] (by simp; omega)
      rw [heq] at h
      simpa [docsOf, loopDocs] using h

theorem mailLoop_length (rexc : Option Nat) :
    ∀ (rows : List MailRow) (i : Nat) (docs : List Document),
      (loopDocs (mailLoop rexc rows i docs)).length ≤ docs.length + rows.length := by
  intro rows
  induction rows with
  | nil => intro i docs; simp [mailLoop, loopDocs]
  | cons r rest ih =>
    intro i docs
    simp only [mailLoop]
    split
    · simp [loopDocs]
    split
    · have := ih (i + 1) docs
      simp only [List.length_cons]
      omega
    · have := ih (i + 1) (docs ++ [mailRowDoc r])
      simp at this ⊢
      omega

theorem calLoop_length (rexc : Option Nat) :
    ∀ (rows : List CalRow) (i : Nat) (docs : List Document),
      (loopDocs (calLoop rexc rows i docs)).length ≤ docs.length + rows.length := by
  intro rows
  induction rows with
  | nil => intro i docs; simp [calLoop, loopDocs]
  | cons r rest ih =>
    intro i docs
    simp only [calLoop]
    split
    · simp [loopDocs]
    split
    · have := ih (i + 1) docs
      simp only [List.length_cons]
      omega
    · have := ih (i + 1) (docs ++ [calRowDoc r])
      simp at this ⊢
      omega

theorem limitRows_length_le {α : Type} (mc : Int) (rows : List α) (hmc : 0 ≤ mc) :
    ((limitRows mc rows).length : Int) ≤ mc := by
  simp only [limitRows]
  rw [if_neg (not_lt.mpr hmc)]
  have h1 : (rows.take mc.toNat).length ≤ mc.toNat := by
    simp [List.length_take]
  have h2 : (mc.toNat : Int) = mc := Int.toNat_of_nonneg hmc
  omega

theorem mailLoadData_cap (env : MailEnv) (mc : Int) (hmc : 0 ≤ mc) :
    ((docsOf (mailLoadData env mc)).length : Int) ≤ mc := by
  unfold mailLoadData
  split
  · simp [docsOf]; omega
  split
  · simp [docsOf]; omega
  split
  · simp [docsOf]; omega
  split
  · simp [docsOf]; omega
  · have hrows := limitRows_length_le mc env.rows hmc
    split
    next e docs heq =>
      have h := mailLoop_length env.rowExc (limitRows mc env.rows) 0 []
      rw [heq] at h
      simp only [loopDocs, List.length_nil, Nat.zero_add] at h
      simp only [docsOf]
      omega
    next docs heq =>
      have h := mailLoop_length env.rowExc (limitRows mc env.rows) 0 []
      rw [heq] at h
      simp only [loopDocs, List.length_nil, Nat.zero_add] at h
      simp only [docsOf]
      omega

theorem calendarLoadData_cap (env : CalEnv) (mc : Int) (hmc : 0 ≤ mc) :
    ((docsOf (calendarLoadData env mc)).length : Int) ≤ mc := by
  unfold calendarLoadData
  split
  · simp [docsOf]; omega
  split
  · simp [docsOf]; omega
  split
  · simp [docsOf]; omega
  split
  · simp [docsOf]; omega
  · have hrows := limitRows_length_le mc env.rows hmc
    split
    next e docs heq =>
      have h := calLoop_length env.rowExc (limitRows mc env.rows) 0 []
      rw [heq] at h
      simp only [loopDocs, List.length_nil, Nat.zero_add] at h
      simp only [docsOf]
      omega
    next docs heq =>
      have h := calLoop_length env.rowExc (limitRows mc env.rows) 0 []
      rw [heq] at h
      simp only [loopDocs, List.length_nil, Nat.zero_add] at h
      simp only [docsOf]
      omega

theorem wechatIndivLoop_cap (mc : Int) (cn : String) :
    ∀ (texts : List String) (docs : List Document) (count : Nat), count = docs.length →
      (wechatIndivLoop mc cn texts docs count).2 =
        (wechatIndivLoop mc cn texts docs count).1.length ∧
      (0 < mc → (count : Int) ≤ mc →
        ((wechatIndivLoop mc cn texts docs count).1.length : Int) ≤ mc) := by
  intro texts
  induction texts with
  | nil =>
    intro docs count hc
    refine ⟨by simpa [wechatIndivLoop] using hc, fun hmc hle => ?_⟩
    simp only [wechatIndivLoop]
    omega
  | cons t rest ih =>
    intro docs count hc
    simp only [wechatIndivLoop]
    split
    · exact ⟨by simpa using hc, fun hmc hle => by simp; omega⟩
    next hbrk =>
      have hih := ih (docs ++ [⟨t, [("contact_name", .str cn)]⟩]) (count + 1)
        (by simp [hc])
      refine ⟨hih.1, fun hmc hle => hih.2 hmc ?_⟩
      rcases not_and_or.mp hbrk with h1 | h2
      · exact absurd hmc h1
      · have := lt_of_not_le h2
        push_cast
        omega

theorem wechatFilesLoop_cap (mc : Int) (cat : Bool) :
    ∀ (files : List WFile) (docs : List Document) (count : Nat) (logs : List String),
      count = docs.length →
      (wechatFilesLoop mc cat files docs count logs).2.1 =
        (wechatFilesLoop mc cat files docs count logs).1.length ∧
      (0 < mc → (count : Int) ≤ mc →
        ((wechatFilesLoop mc cat files docs count logs).1.length : Int) ≤ mc) := by
  intro files
  induction files with
  | nil =>
    intro docs count logs hc
    refine ⟨by simpa [wechatFilesLoop] using hc, fun hmc hle => ?_⟩
    simp only [wechatFilesLoop]
    omega
  | cons f rest ih =>
    intro docs count logs hc
    simp only [wechatFilesLoop]
    split
    · exact ⟨by simpa using hc, fun hmc hle => by simp; omega⟩
    next hbrk =>
      split
      · exact ih docs count _ hc
      next name msgs =>
        split
        · exact ih docs count _ hc
        next texts htexts =>
          split
          · exact ih docs count logs hc
          · split
            · refine (ih _ (count + 1) logs (by simp [hc])).imp id (fun hcap hmc hle => hcap hmc ?_)
              rcases not_and_or.mp hbrk with h1 | h2
              · exact absurd hmc h1
              · have := lt_of_not_le h2
                push_cast
                omega
            · have hind := wechatIndivLoop_cap mc name texts docs count hc
              refine (ih _ _ logs hind.1).imp id (fun hcap hmc hle => hcap hmc ?_)
              rw [hind.1]
              exact hind.2 hmc hle

theorem wechatLoadData_cap (env : WeChatEnv) (wdir : String) (cat : Bool) (mc : Int)
    (hmc : 0 < mc) :
    ((wdocsOf (wechatLoadData env wdir mc cat)).length : Int) ≤ mc := by
  unfold wechatLoadData
  split
  · simp [wdocsOf]; omega
  split
  · simp [wdocsOf]; omega
  · have h := wechatFilesLoop_cap mc cat env.files [] 0 [] rfl
    simpa [wdocsOf] using h.2 hmc (by omega)

theorem chromeLoop_uncapped (rexc : Option Nat) (mc mc2 : Int) (h : mc ≤ 0) (h2 : mc2 ≤ 0) :
    ∀ (rows : List ChromeRow) (i : Nat) (docs : List Document),
      chromeLoop mc rexc rows i docs = chromeLoop mc2 rexc rows i docs := by
  intro rows
  induction rows with
  | nil => intro i docs; rfl
  | cons r rest ih =>
    intro i docs
    simp only [chromeLoop]
    have hb1 : ¬(0 < mc ∧ mc ≤ (docs.length : Int)) := fun hcon => (not_lt.mpr h) hcon.1
    have hb2 : ¬(0 < mc2 ∧ mc2 ≤ (docs.length : Int)) := fun hcon => (not_lt.mpr h2) hcon.1
    rw [if_neg hb1, if_neg hb2]
    by_cases hre : rexc = some i
    · rw [if_pos hre, if_pos hre]
    · rw [if_neg hre, if_neg hre]
      by_cases hskip : (!truthyStr r.title || !truthyStr r.url) = true
      · rw [if_pos hskip, if_pos hskip]
        exact ih (i + 1) docs
      · rw [if_neg hskip, if_neg hskip]
        exact ih (i + 1) (docs ++ [chromeRowDoc r])

theorem wechatIndivLoop_uncapped (cn : String) (mc mc2 : Int) (h : mc ≤ 0) (h2 : mc2 ≤ 0) :
    ∀ (texts : List String) (docs : List Document) (count : Nat),
      wechatIndivLoop mc cn texts docs count = wechatIndivLoop mc2 cn texts docs count := by
  intro texts
  induction texts with
  | nil => intro docs count; rfl
  | cons t rest ih =>
    intro docs count
    simp only [wechatIndivLoop]
    have hb1 : ¬(0 < mc ∧ mc ≤ (count : Int)) := fun hcon => (not_lt.mpr h) hcon.1
    have hb2 : ¬(0 < mc2 ∧ mc2 ≤ (count : Int)) := fun hcon => (not_lt.mpr h2) hcon.1
    rw [if_neg hb1, if_neg hb2]
    exact ih _ (count + 1)

theorem wechatFilesLoop_uncapped (cat : Bool) (mc mc2 : Int) (h : mc ≤ 0) (h2 : mc2 ≤ 0) :
    ∀ (files : List WFile) (docs : List Document) (count : Nat) (logs : List String),
      wechatFilesLoop mc cat files docs count logs =
        wechatFilesLoop mc2 cat files docs count logs := by
  intro files
  induction files with
  | nil => intro docs count logs; rfl
  | cons f rest ih =>
    intro docs count logs
    simp only [wechatFilesLoop]
    have hb1 : ¬(0 < mc ∧ mc ≤ (count : Int)) := fun hcon => (not_lt.mpr h) hcon.1
    have hb2 : ¬(0 < mc2 ∧ mc2 ≤ (count : Int)) := fun hcon => (not_lt.mpr h2) hcon.1
    rw [if_neg hb1, if_neg hb2]
    cases f with
    | parseError name => exact ih docs count _
    | chat name msgs =>
      dsimp only
      cases htexts : wechatMessagesText msgs with
      | raised e =>
        dsimp only
        exact ih docs count _
      | ok texts =>
        dsimp only
        by_cases hemp : texts.isEmpty = true
        · rw [if_pos hemp, if_pos hemp]
          exact ih docs count logs
        · rw [if_neg hemp, if_neg hemp]
          by_cases hcat : cat = true
          · rw [if_pos hcat, if_pos hcat]
            exact ih _ (count + 1) logs
          · rw [if_neg hcat, if_neg hcat]
            rw [wechatIndivLoop_uncapped name mc mc2 h h2 texts docs count]
            exact ih _ _ logs

theorem limitRows_neg {α : Type} (mc : Int) (rows : List α) (h : mc < 0) :
    limitRows mc rows = rows := by
  simp [limitRows, h]

theorem mailLoadData_zero (env : MailEnv) : docsOf (mailLoadData env 0) = [] := by
  unfold mailLoadData
  split
  · rfl
  split
  · rfl
  split
  · rfl
  split
  · rfl
  · have hz : limitRows (0 : Int) env.rows = [] := by
      simp [limitRows]
    rw [hz]
    simp [mailLoop, docsOf]

theorem calendarLoadData_zero (env : CalEnv) : docsOf (calendarLoadData env 0) = [] := by
  unfold calendarLoadData
  split
  · rfl
  split
  · rfl
  split
  · rfl
  split
  · rfl
  · have hz : limitRows (0 : Int) env.rows = [] := by
      simp [limitRows]
    rw [hz]
    simp [calLoop, docsOf]

/-- C10: every extractor that takes a max_count parameter (browser history,
mail, calendar, chat export) defaults it to 1000, so a call at the default
returns at most 1000 documents (query rows for mail/calendar), and whenever
max_count is positive the result length is bounded by it — unlimited output
therefore requires an explicit non-positive max_count. -/
theorem c10_default_max_count_1000 :
    chromeDefaultMaxCount = 1000 ∧ mailDefaultMaxCount = 1000 ∧
    calendarDefaultMaxCount = 1000 ∧ wechatDefaultMaxCount = 1000 ∧
    (∀ cenv profile,
      ((docsOf (chromeLoadData cenv profile chromeDefaultMaxCount)).length : Int) ≤ 1000) ∧
    (∀ menv, ((docsOf (mailLoadData menv mailDefaultMaxCount)).length : Int) ≤ 1000) ∧
    (∀ aenv, ((docsOf (calendarLoadData aenv calendarDefaultMaxCount)).length : Int) ≤ 1000) ∧
    (∀ wenv wdir wcat,
      ((wdocsOf (wechatLoadData wenv wdir wechatDefaultMaxCount wcat)).length : Int) ≤ 1000) ∧
    (∀ cenv profile mc, 0 < mc →
      ((docsOf (chromeLoadData cenv profile mc)).length : Int) ≤ mc) ∧
    (∀ menv mc, 0 < mc → ((docsOf (mailLoadData menv mc)).length : Int) ≤ mc) ∧
    (∀ aenv mc, 0 < mc → ((docsOf (calendarLoadData aenv mc)).length : Int) ≤ mc) ∧
    (∀ wenv wdir wcat mc, 0 < mc →
      ((wdocsOf (wechatLoadData wenv wdir mc wcat)).length : Int) ≤ mc) := by
  refine ⟨rfl, rfl, rfl, rfl, ?_, ?_, ?_, ?_, ?_, ?_, ?_, ?_⟩
  · exact fun cenv profile => chromeLoadData_cap cenv profile 1000 (by omega)
  · exact fun menv => mailLoadData_cap menv 1000 (by omega)
  · exact fun aenv => calendarLoadData_cap aenv 1000 (by omega)
  · exact fun wenv wdir wcat => wechatLoadData_cap wenv wdir wcat 1000 (by omega)
  · exact fun cenv profile mc hmc => chromeLoadData_cap cenv profile mc hmc
  · exact fun menv mc hmc => mailLoadData_cap menv mc (le_of_lt hmc)
  · exact fun aenv mc hmc => calendarLoadData_cap aenv mc (le_of_lt hmc)
  · exact fun wenv wdir wcat mc hmc => wechatLoadData_cap wenv wdir wcat mc hmc

/-- Witness for C10 at a concrete two-row environment with max_count 1. -/
theorem c10_default_max_count_1000_witness :
    (0 : Int) < 1 ∧
    ((docsOf (chromeLoadData chromeEnvTwoRows "/home/u/profile" 1)).length : Int) ≤ 1 ∧
    (docsOf (chromeLoadData chromeEnvTwoRows "/home/u/profile" 1)).length = 1 :=
  ⟨by decide,
   (c10_default_max_count_1000.2.2.2.2.2.2.2.2.1) chromeEnvTwoRows "/home/u/profile" 1
     (by decide),
   by decide⟩

/-- C4 corrected: the cap semantics actually implemented. For max_count > 0
the browser-history, mail, calendar, and chat-export loads return at most
max_count documents; max_count ≤ 0 disables the cap for browser history and
chat export; for mail and calendar — whose cap is a SQL LIMIT — a negative
max_count disables the cap but max_count = 0 returns an empty result; and
the messaging extractor accepts max_count only as an ignored keyword
argument, applying no cap at all. -/
theorem c4_amended_cap_semantics :
    (∀ cenv profile mc, 0 < mc →
      ((docsOf (chromeLoadData cenv profile mc)).length : Int) ≤ mc) ∧
    (∀ menv mc, 0 < mc → ((docsOf (mailLoadData menv mc)).length : Int) ≤ mc) ∧
    (∀ aenv mc, 0 < mc → ((docsOf (calendarLoadData aenv mc)).length : Int) ≤ mc) ∧
    (∀ wenv wdir wcat mc, 0 < mc →
      ((wdocsOf (wechatLoadData wenv wdir mc wcat)).length : Int) ≤ mc) ∧
    (∀ cenv profile mc mc2, mc ≤ 0 → mc2 ≤ 0 →
      chromeLoadData cenv profile mc = chromeLoadData cenv profile mc2) ∧
    (∀ wenv wdir wcat mc mc2, mc ≤ 0 → mc2 ≤ 0 →
      wechatLoadData wenv wdir mc wcat = wechatLoadData wenv wdir mc2 wcat) ∧
    (∀ menv mc mc2, mc < 0 → mc2 < 0 → mailLoadData menv mc = mailLoadData menv mc2) ∧
    (∀ aenv mc mc2, mc < 0 → mc2 < 0 → calendarLoadData aenv mc = calendarLoadData aenv mc2) ∧
    (∀ menv, docsOf (mailLoadData menv 0) = []) ∧
    (∀ aenv, docsOf (calendarLoadData aenv 0) = []) ∧
    (∀ ienv icat k k2, imessageLoadData ienv icat k = imessageLoadData ienv icat k2) := by
  refine ⟨fun cenv profile mc hmc => chromeLoadData_cap cenv profile mc hmc,
          fun menv mc hmc => mailLoadData_cap menv mc (le_of_lt hmc),
          fun aenv mc hmc => calendarLoadData_cap aenv mc (le_of_lt hmc),
          fun wenv wdir wcat mc hmc => wechatLoadData_cap wenv wdir wcat mc hmc,
          ?_, ?_, ?_, ?_,
          mailLoadData_zero, calendarLoadData_zero, fun _ _ _ _ => rfl⟩
  · intro cenv profile mc mc2 h h2
    unfold chromeLoadData
    rw [chromeLoop_uncapped cenv.rowExc mc mc2 h h2 cenv.rows 0 []]
  · intro wenv wdir wcat mc mc2 h h2
    unfold wechatLoadData
    rw [wechatFilesLoop_uncapped wcat mc mc2 h h2 wenv.files [] 0 []]
  · intro menv mc mc2 h h2
    unfold mailLoadData
    rw [limitRows_neg mc menv.rows h, limitRows_neg mc2 menv.rows h2]
  · intro aenv mc mc2 h h2
    unfold calendarLoadData
    rw [limitRows_neg mc aenv.rows h, limitRows_neg mc2 aenv.rows h2]

/-- Witness for C4's amended statement at concrete inputs. -/
theorem c4_amended_cap_semantics_witness :
    ((0 : Int) < 1 ∧
      ((docsOf (chromeLoadData chromeEnvTwoRows "/home/u/profile" 1)).length : Int) ≤ 1) ∧
    ((-3 : Int) ≤ 0 ∧ (0 : Int) ≤ 0 ∧
      chromeLoadData chromeEnvTwoRows "/home/u/profile" (-3) =
        chromeLoadData chromeEnvTwoRows "/home/u/profile" 0) ∧
    docsOf (mailLoadData mailEnvOneRow 0) = [] ∧
    imessageLoadData imsgEnvTwoChats true 1 = imessageLoadData imsgEnvTwoChats true 50 :=
  ⟨⟨by decide,
    c4_amended_cap_semantics.1 chromeEnvTwoRows "/home/u/profile" 1 (by decide)⟩,
   ⟨by decide, by decide,
    c4_amended_cap_semantics.2.2.2.2.1 chromeEnvTwoRows "/home/u/profile" (-3) 0
      (by decide) (by decide)⟩,
   c4_amended_cap_semantics.2.2.2.2.2.2.2.2.1 mailEnvOneRow,
   c4_amended_cap_semantics.2.2.2.2.2.2.2.2.2.2 imsgEnvTwoChats true 1 50⟩

theorem readMessagesFromDb_connections (env : ImsgEnv) (hdb : env.dbExists = true)
    (hcn : env.connectOk = true) : (readMessagesFromDb env).connections = [env.dbPath] := by
  unfold readMessagesFromDb
  rw [hdb, hcn]
  rw [if_neg (by decide), if_neg (by decide)]
  split
  · rfl
  · split <;> rfl

theorem chromeLoadData_connections (env : ChromeEnv) (profile : String) (mc : Int) :
    connectionsOf (chromeLoadData env profile mc) = [] ∨
      connectionsOf (chromeLoadData env profile mc) = [chromeTempDbPath] := by
  unfold chromeLoadData
  split
  · exact Or.inl rfl
  split
  · exact Or.inl rfl
  split
  · exact Or.inl rfl
  split
  · exact Or.inr rfl
  · split
    · exact Or.inr rfl
    · exact Or.inr rfl

theorem mailLoadData_connections (env : MailEnv) (mc : Int) :
    connectionsOf (mailLoadData env mc) = [] ∨
      connectionsOf (mailLoadData env mc) = [mailTempDbPath] := by
  unfold mailLoadData
  split
  · exact Or.inl rfl
  split
  · exact Or.inl rfl
  split
  · exact Or.inl rfl
  split
  · exact Or.inr rfl
  · split
    · exact Or.inr rfl
    · exact Or.inr rfl

theorem calendarLoadData_connections (env : CalEnv) (mc : Int) :
    connectionsOf (calendarLoadData env mc) = [] ∨
      connectionsOf (calendarLoadData env mc) = [calendarTempDbPath] := by
  unfold calendarLoadData
  split
  · exact Or.inl rfl
  split
  · exact Or.inl rfl
  split
  · exact Or.inl rfl
  split
  · exact Or.inr rfl
  · split
    · exact Or.inr rfl
    · exact Or.inr rfl

/-- C2 corrected: the copy-based extractors (browser history, mail,
calendar) only ever open connections against their fixed scratch path, and
open no connection at all when the copy step fails; but the messaging
extractor opens its single connection directly against the live chat.db
source path (see the counterexample). -/
theorem c2_amended_connection_targets :
    (∀ cenv profile mc, ∀ p ∈ connectionsOf (chromeLoadData cenv profile mc),
      p = chromeTempDbPath) ∧
    (∀ (cenv : ChromeEnv) profile mc, cenv.copyOk = false →
      connectionsOf (chromeLoadData cenv profile mc) = []) ∧
    (∀ menv mc, ∀ p ∈ connectionsOf (mailLoadData menv mc), p = mailTempDbPath) ∧
    (∀ (menv : MailEnv) mc, menv.copyOk = false →
      connectionsOf (mailLoadData menv mc) = []) ∧
    (∀ aenv mc, ∀ p ∈ connectionsOf (calendarLoadData aenv mc), p = calendarTempDbPath) ∧
    (∀ (aenv : CalEnv) mc, aenv.copyOk = false →
      connectionsOf (calendarLoadData aenv mc) = []) ∧
    (∀ (ienv : ImsgEnv) icat k, ienv.dbExists = true → ienv.connectOk = true →
      ∃ out, imessageLoadData ienv icat k = .ok out ∧ out.connections = [ienv.dbPath]) := by
  refine ⟨?_, ?_, ?_, ?_, ?_, ?_, ?_⟩
  · intro cenv profile mc p hp
    rcases chromeLoadData_connections cenv profile mc with h | h <;> rw [h] at hp <;>
      simp at hp
    exact hp
  · intro cenv profile mc hcp
    unfold chromeLoadData
    split
    · rfl
    · rw [if_pos (by simp [hcp])]
      rfl
  · intro menv mc p hp
    rcases mailLoadData_connections menv mc with h | h <;> rw [h] at hp <;> simp at hp
    exact hp
  · intro menv mc hcp
    unfold mailLoadData
    split
    · rfl
    · rw [if_pos (by simp [hcp])]
      rfl
  · intro aenv mc p hp
    rcases calendarLoadData_connections aenv mc with h | h <;> rw [h] at hp <;> simp at hp
    exact hp
  · intro aenv mc hcp
    unfold calendarLoadData
    split
    · rfl
    · rw [if_pos (by simp [hcp])]
      rfl
  · intro ienv icat k hdb hcn
    unfold imessageLoadData
    split
    · exact ⟨_, rfl, readMessagesFromDb_connections ienv hdb hcn⟩
    · exact ⟨_, rfl, readMessagesFromDb_connections ienv hdb hcn⟩

/-- Witness for C2's amended statement at concrete environments. -/
theorem c2_amended_connection_targets_witness :
    (∀ p ∈ connectionsOf (chromeLoadData chromeEnvTwoRows "/home/u/profile" 5),
      p = chromeTempDbPath) ∧
    imsgEnvLive.dbExists = true ∧ imsgEnvLive.connectOk = true ∧
    (∃ out, imessageLoadData imsgEnvLive true 5 = .ok out ∧
      out.connections = [imsgEnvLive.dbPath]) :=
  ⟨c2_amended_connection_targets.1 chromeEnvTwoRows "/home/u/profile" 5, rfl, rfl,
   c2_amended_connection_targets.2.2.2.2.2.2 imsgEnvLive true 5 rfl rfl⟩

/-- C6 corrected: contact-label resolution in terms of the digit characters
extracted from the handle (not the handle's own shape): the empty handle
gives "Unknown"; handles containing "@" or starting with "+" pass through;
otherwise exactly-10 extracted digits are formatted as (AAA) BBB-CCCC,
exactly 11 extracted digits with a leading 1 as +1 (AAA) BBB-CCCC, and every
other digit count passes through; the claim's concrete examples hold. -/
theorem c6_amended_contact_label (h : String) :
    (h = "" → getContactName h = "Unknown") ∧
    (h ≠ "" → h.data.contains '@' = true → getContactName h = h) ∧
    (h ≠ "" → h.data.contains '@' = false → startsWithList h.data ['+'] = true →
      getContactName h = h) ∧
    (h ≠ "" → h.data.contains '@' = false → startsWithList h.data ['+'] = false →
      (h.data.filter Char.isDigit).length = 10 →
      getContactName h =
        "(" ++ String.mk ((h.data.filter Char.isDigit).take 3) ++ ") " ++
          String.mk (((h.data.filter Char.isDigit).drop 3).take 3) ++ "-" ++
          String.mk ((h.data.filter Char.isDigit).drop 6)) ∧
    (h ≠ "" → h.data.contains '@' = false → startsWithList h.data ['+'] = false →
      (h.data.filter Char.isDigit).length = 11 →
      (h.data.filter Char.isDigit).take 1 = ['1'] →
      getContactName h =
        "+1 (" ++ String.mk (((h.data.filter Char.isDigit).drop 1).take 3) ++ ") " ++
          String.mk (((h.data.filter Char.isDigit).drop 4).take 3) ++ "-" ++
          String.mk ((h.data.filter Char.isDigit).drop 7)) ∧
    (h ≠ "" → h.data.contains '@' = false → startsWithList h.data ['+'] = false →
      (h.data.filter Char.isDigit).length ≠ 10 →
      ¬((h.data.filter Char.isDigit).length = 11 ∧
        (h.data.filter Char.isDigit).take 1 = ['1']) →
      getContactName h = h) ∧
    getContactName "1234567890" = "(123) 456-7890" ∧
    getContactName "11234567890" = "+1 (123) 456-7890" := by
  refine ⟨?_, ?_, ?_, ?_, ?_, ?_, by decide, by decide⟩
  · intro h1
    simp [getContactName, h1]
  · intro h1 h2
    have h2m : '@' ∈ h.data := by simpa using h2
    simp [getContactName, h1, h2m]
  · intro h1 h2 h3
    have h2m : '@' ∉ h.data := by simpa using h2
    simp [getContactName, h1, h2m, h3]
  · intro h1 h2 h3 h4
    have h2m : '@' ∉ h.data := by simpa using h2
    simp [getContactName, h1, h2m, h3, h4]
  · intro h1 h2 h3 h4 h5
    have h2m : '@' ∉ h.data := by simpa using h2
    simp [getContactName, h1, h2m, h3, h4, h5]
  · intro h1 h2 h3 h4 h5
    have h2m : '@' ∉ h.data := by simpa using h2
    simp [getContactName, h1, h2m, h3, h4, h5]

/-- Witness for C6's amended statement: the formatting branch fires on a
non-digit-only handle. -/
theorem c6_amended_contact_label_witness :
    (("a1234567890" : String) ≠ "" ∧
      ("a1234567890" : String).data.contains '@' = false ∧
      startsWithList ("a1234567890" : String).data ['+'] = false ∧
      (("a1234567890" : String).data.filter Char.isDigit).length = 10) ∧
    getContactName "a1234567890" =
      "(" ++ String.mk ((("a1234567890" : String).data.filter Char.isDigit).take 3) ++ ") " ++
        String.mk (((("a1234567890" : String).data.filter Char.isDigit).drop 3).take 3) ++
        "-" ++ String.mk ((("a1234567890" : String).data.filter Char.isDigit).drop 6) :=
  ⟨⟨by decide, by decide, by decide, by decide⟩,
   (c6_amended_contact_label "a1234567890").2.2.2.1 (by decide) (by decide) (by decide)
     (by decide)⟩

theorem dropWhile_exists_drop (p : Char → Bool) :
    ∀ l : List Char, ∃ k, l.dropWhile p = l.drop k := by
  intro l
  induction l with
  | nil => exact ⟨0, rfl⟩
  | cons c rest ih =>
    by_cases hc : p c = true
    · obtain ⟨k, hk⟩ := ih
      exact ⟨k + 1, by simp [List.dropWhile_cons, hc, hk]⟩
    · exact ⟨0, by simp [List.dropWhile_cons, hc]⟩

theorem stripWxid_exists_drop (l : List Char) :
    ∃ k, stripWxidPrefixFrom l = l.drop k := by
  unfold stripWxidPrefixFrom
  split
  · split
    next j hj =>
      split
      · exact ⟨0, rfl⟩
      · obtain ⟨k, hk⟩ := dropWhile_exists_drop pySpaceChar (l.drop (5 + j + 1))
        refine ⟨k + (5 + j + 1), ?_⟩
        rw [hk, List.drop_drop]
        congr 1
        omega
    · exact ⟨0, rfl⟩
  · exact ⟨0, rfl⟩

theorem stripColon_exists_drop (l : List Char) :
    ∃ k, stripColonPrefixFrom l = l.drop k := by
  unfold stripColonPrefixFrom
  split
  next j hj =>
    split
    · exact ⟨0, rfl⟩
    · obtain ⟨k, hk⟩ := dropWhile_exists_drop pySpaceChar (l.drop (j + 1))
      refine ⟨k + (j + 1), ?_⟩
      rw [hk, List.drop_drop]
      congr 1
      omega
  · exact ⟨0, rfl⟩

theorem containsSubList_drop (n : List Char) :
    ∀ (k : Nat) (l : List Char),
      containsSubList (l.drop k) n = true → containsSubList l n = true := by
  intro k
  induction k with
  | zero => intro l h; simpa using h
  | succ k ih =>
    intro l h
    cases l with
    | nil => simpa using h
    | cons c rest =>
      have hr : containsSubList rest n = true := ih rest (by simpa using h)
      simp [containsSubList, hr]

theorem natToDigitsAux_length : ∀ (fuel n : Nat) (acc : List Char),
    acc.length ≤ (natToDigitsAux fuel n acc).length := by
  intro fuel
  induction fuel with
  | zero => intro n acc; simp [natToDigitsAux]
  | succ fuel ih =>
    intro n acc
    simp only [natToDigitsAux]
    split
    · simp
    · have h := ih (n / 10) (Char.ofNat (48 + n % 10) :: acc)
      simp at h
      omega

theorem natToDigits_ne_nil (n : Nat) : natToDigits n ≠ [] := by
  unfold natToDigits natToDigitsAux
  split
  · simp
  · intro hcon
    have h1 := natToDigitsAux_length n (n / 10) [Char.ofNat (48 + n % 10)]
    rw [hcon] at h1
    simp at h1

theorem strMk_ne_empty {cs : List Char} (h : cs ≠ []) : String.mk cs ≠ "" := by
  intro hcon
  apply h
  have hd : (String.mk cs).data = ("" : String).data := by rw [hcon]
  simpa using hd

theorem str_eq_empty_of_length (s : String) (h : s.length = 0) : s = "" := by
  cases s with
  | mk data =>
    cases data with
    | nil => rfl
    | cons c cs => simp [String.length] at h

theorem strAppend_ne_empty_left (a b : String) (h : a ≠ "") : a ++ b ≠ "" := by
  intro hcon
  apply h
  apply str_eq_empty_of_length
  have hl : (a ++ b).length = 0 := by rw [hcon]; rfl
  rw [String.length_append] at hl
  omega

theorem pyNatStr_ne_empty (n : Nat) : pyNatStr n ≠ "" :=
  strMk_ne_empty (natToDigits_ne_nil n)

theorem pyIntStr_ne_empty (n : Int) : pyIntStr n ≠ "" := by
  unfold pyIntStr
  split
  · exact strAppend_ne_empty_left "-" _ (by decide)
  · exact pyNatStr_ne_empty n.natAbs

theorem pyStr_ne_empty (v : PyVal) (h : pyTruthy v = true) : pyStr v ≠ "" := by
  cases v with
  | str s =>
    simp only [pyTruthy] at h
    simpa [pyStr] using of_decide_eq_true h
  | int n => exact pyIntStr_ne_empty n
  | bool b =>
    simp only [pyTruthy] at h
    subst h
    decide
  | null => simp [pyTruthy] at h
  | strList xs => exact strAppend_ne_empty_left _ "]" (strAppend_ne_empty_left "[" _ (by decide))

theorem joinSep_ne_empty (sep : String) :
    ∀ (parts : List String), (∀ x ∈ parts, x ≠ "") → parts ≠ [] → joinSep sep parts ≠ "" := by
  intro parts hx hne
  match parts with
  | [] => exact absurd rfl hne
  | [p] => exact hx p (by simp)
  | p :: q :: rest =>
    show p ++ sep ++ joinSep sep (q :: rest) ≠ ""
    exact strAppend_ne_empty_left (p ++ sep) _ (strAppend_ne_empty_left p sep (hx p (by simp)))

theorem wechatDictParts_mem_ne_empty (fields : List (String × PyVal)) :
    ∀ x ∈ wechatDictParts fields, x ≠ "" := by
  intro x hx
  rw [wechatDictParts, List.mem_filterMap] at hx
  obtain ⟨f, hf, hfx⟩ := hx
  cases hlv : lookupVal fields f with
  | none => rw [hlv] at hfx; simp at hfx
  | some w =>
    rw [hlv] at hfx
    dsimp only at hfx
    by_cases htw : pyTruthy w = true
    · rw [if_pos htw] at hfx
      cases hfx
      exact pyStr_ne_empty w htw
    · rw [if_neg htw] at hfx
      cases hfx

theorem extract_ne_of_isText (p : Payload) (h : isTextMessage p = true) :
    extractReadableText p ≠ "" := by
  cases p with
  | none => simp [isTextMessage] at h
  | other => simp [isTextMessage] at h
  | dict fields =>
    simp only [isTextMessage] at h
    simp only [extractReadableText]
    split at h
    · simp at h
    next hf =>
      rw [if_neg hf]
      rw [List.any_eq_true] at h
      obtain ⟨f, hfmem, hft⟩ := h
      have hmem : ∃ v, lookupVal fields f = some v ∧ pyTruthy v = true := by
        cases hlv : lookupVal fields f with
        | none => rw [hlv] at hft; simp [optTruthy] at hft
        | some v =>
          refine ⟨v, rfl, ?_⟩
          rw [hlv] at hft
          simpa [optTruthy] using hft
      obtain ⟨v, hlv, htv⟩ := hmem
      have hpmem : pyStr v ∈ wechatDictParts fields := by
        rw [wechatDictParts, List.mem_filterMap]
        exact ⟨f, hfmem, by rw [hlv]; simp [htv]⟩
      have hne : wechatDictParts fields ≠ [] := List.ne_nil_of_mem hpmem
      rw [if_neg hne]
      exact joinSep_ne_empty " | " _ (wechatDictParts_mem_ne_empty fields) hne
  | str s =>
    simp only [isTextMessage] at h
    simp only [extractReadableText]
    split at h
    · simp at h
    next hs =>
      rw [if_neg hs]
      split at h
      · simp at h
      next htag =>
        split at h
        · simp at h
        next hrec =>
          rw [Bool.and_eq_true] at h
          obtain ⟨hlen, hlt⟩ := h
          have hrecb : containsSubList
              (stripColonPrefixFrom (stripWxidPrefixFrom s.data)) recalledPhrase = false := by
            obtain ⟨k1, hk1⟩ := stripWxid_exists_drop s.data
            obtain ⟨k2, hk2⟩ := stripColon_exists_drop (stripWxidPrefixFrom s.data)
            rw [hk2, hk1, List.drop_drop]
            by_contra hcon
            rw [Bool.not_eq_false] at hcon
            exact hrec (containsSubList_drop recalledPhrase _ s.data hcon)
          have hltb : startsWithList
              (pyStripList (stripColonPrefixFrom (stripWxidPrefixFrom s.data))) ['<'] = false := by
            simpa using hlt
          rw [if_neg (by simp [hltb, hrecb])]
          apply strMk_ne_empty
          simpa using hlen

/-- C7 corrected: classification as a text message implies that readable-
text extraction returns a non-empty string — but not conversely, since
extraction only rejects markup at the start of the cleaned string while
classification rejects markup anywhere (see the counterexample) — and the
claim's concrete examples hold. -/
theorem c7_amended_classification (p : Payload) (h : isTextMessage p = true) :
    extractReadableText p ≠ "" ∧
    isTextMessage (.str "<img=...>") = false ∧
    extractReadableText (.str "id123: hello") = "hello" ∧
    extractReadableText (.dict [("content", .str "hi")]) = "hi" :=
  ⟨extract_ne_of_isText p h, by decide, by decide, by decide⟩

/-- Witness for C7's amended statement at a concrete payload. -/
theorem c7_amended_classification_witness :
    isTextMessage (.str "id123: hello") = true ∧
    (extractReadableText (.str "id123: hello") ≠ "" ∧
     isTextMessage (.str "<img=...>") = false ∧
     extractReadableText (.str "id123: hello") = "hello" ∧
     extractReadableText (.dict [("content", .str "hi")]) = "hi") :=
  ⟨by decide, c7_amended_classification (.str "id123: hello") (by decide)⟩

theorem firstSeen_step_mem {α : Type} [DecidableEq α] (acc : List α) (a x : α) :
    (x ∈ (if acc.any (fun b => b == a) then acc else acc ++ [a])) ↔ x ∈ acc ∨ x = a := by
  by_cases hmem : acc.any (fun b => b == a) = true
  · rw [if_pos hmem]
    rw [List.any_eq_true] at hmem
    obtain ⟨b, hb, hba⟩ := hmem
    rw [beq_iff_eq] at hba
    subst hba
    constructor
    · exact Or.inl
    · rintro (h | h)
      · exact h
      · subst h
        exact hb
  · rw [if_neg hmem]
    simp [List.mem_append]

theorem mem_firstSeenAux {α : Type} [DecidableEq α] :
    ∀ (l acc : List α) (x : α),
      (x ∈ l.foldl (fun acc a => if acc.any (fun b => b == a) then acc else acc ++ [a]) acc ↔
        x ∈ acc ∨ x ∈ l) := by
  intro l
  induction l with
  | nil => intro acc x; simp
  | cons a tl ih =>
    intro acc x
    rw [List.foldl_cons, ih, firstSeen_step_mem]
    simp [List.mem_cons, or_assoc]

theorem mem_firstSeen {α : Type} [DecidableEq α] (l : List α) (x : α) :
    x ∈ firstSeen l ↔ x ∈ l := by
  rw [firstSeen, mem_firstSeenAux]
  simp

theorem firstSeen_append {α : Type} [DecidableEq α] (l : List α) (a : α) :
    firstSeen (l ++ [a]) =
      if a ∈ firstSeen l then firstSeen l else firstSeen l ++ [a] := by
  simp only [firstSeen, List.foldl_append, List.foldl_cons, List.foldl_nil]
  by_cases hmem : a ∈ l.foldl
      (fun acc a => if acc.any (fun b => b == a) then acc else acc ++ [a]) []
  · rw [if_pos ?hc, if_pos hmem]
    case hc =>
      rw [List.any_eq_true]
      exact ⟨a, hmem, by simp⟩
  · rw [if_neg ?hc, if_neg hmem]
    case hc =>
      rw [List.any_eq_true]
      rintro ⟨b, hb, hba⟩
      rw [beq_iff_eq] at hba
      subst hba
      exact hmem hb

theorem map_congr_mem {α β : Type} {f g : α → β} :
    ∀ {l : List α}, (∀ a ∈ l, f a = g a) → l.map f = l.map g := by
  intro l
  induction l with
  | nil => intro _; rfl
  | cons a tl ih =>
    intro h
    simp only [List.map_cons]
    rw [h a (by simp), ih (fun b hb => h b (by simp [hb]))]

theorem filter_eq_nil_of_all {α : Type} (p : α → Bool) :
    ∀ (l : List α), (∀ x ∈ l, p x = false) → l.filter p = [] := by
  intro l
  induction l with
  | nil => intro _; rfl
  | cons a tl ih =>
    intro h
    rw [List.filter_cons, h a (by simp)]
    exact ih (fun b hb => h b (by simp [hb]))

theorem groupMessagesByChat_eq (msgs : List Msg) :
    groupMessagesByChat msgs =
      (firstSeen (msgs.map (fun m => m.chat_id))).map
        (fun c => (c, msgs.filter (fun m => m.chat_id == c))) := by
  induction msgs using List.reverseRecOn with
  | nil => rfl
  | append_singleton l m ih =>
    rw [groupMessagesByChat, List.foldl_append, List.foldl_cons, List.foldl_nil,
      ← groupMessagesByChat, ih, List.map_append, List.map_cons, List.map_nil,
      firstSeen_append]
    by_cases hmem : m.chat_id ∈ firstSeen (l.map (fun m => m.chat_id))
    · rw [if_pos hmem]
      rw [groupInsert, if_pos ?hany]
      case hany =>
        rw [List.any_eq_true]
        refine ⟨(m.chat_id, l.filter (fun x => x.chat_id == m.chat_id)), ?_, by simp⟩
        rw [List.mem_map]
        exact ⟨m.chat_id, hmem, rfl⟩
      rw [List.map_map]
      apply map_congr_mem
      intro c _
      simp only [Function.comp]
      by_cases hc2 : c = m.chat_id
      · subst hc2
        simp [List.filter_append]
      · have h1 : (c == m.chat_id) = false := beq_eq_false_iff_ne.mpr hc2
        have h2 : (m.chat_id == c) = false := beq_eq_false_iff_ne.mpr (Ne.symm hc2)
        simp [List.filter_append, h1, h2]
    · rw [if_neg hmem]
      rw [groupInsert, if_neg ?hany]
      case hany =>
        rw [List.any_eq_true]
        rintro ⟨p, hp, hpb⟩
        rw [List.mem_map] at hp
        obtain ⟨c, hc, rfl⟩ := hp
        rw [beq_iff_eq] at hpb
        dsimp at hpb
        subst hpb
        exact hmem hc
      rw [List.map_append, List.map_cons, List.map_nil]
      congr 1
      · apply map_congr_mem
        intro c hc
        have hne : c ≠ m.chat_id := fun he => hmem (he ▸ hc)
        have h2 : (m.chat_id == c) = false := beq_eq_false_iff_ne.mpr (Ne.symm hne)
        simp [List.filter_append, h2]
      · have hfil : l.filter (fun x => x.chat_id == m.chat_id) = [] := by
          apply filter_eq_nil_of_all
          intro x hx
          rw [beq_eq_false_iff_ne]
          intro hxb
          apply hmem
          rw [mem_firstSeen, List.mem_map]
          exact ⟨x, hx, hxb⟩
        simp [List.filter_append, hfil]

theorem filter_chat_ne_nil (msgs : List Msg) (c : Option Int)
    (hc : c ∈ firstSeen (msgs.map (fun m => m.chat_id))) :
    msgs.filter (fun m => m.chat_id == c) ≠ [] := by
  rw [mem_firstSeen, List.mem_map] at hc
  obtain ⟨m, hm, hmc⟩ := hc
  intro hcon
  have hmem : m ∈ msgs.filter (fun m => m.chat_id == c) := by
    rw [List.mem_filter]
    exact ⟨hm, by simp [hmc]⟩
  rw [hcon] at hmem
  simp at hmem

theorem pairwise_ts_of_filter (msgs : List Msg) (c : Option Int)
    (hsort : msgs.Pairwise (fun a b => msgOrderB a b = true)) :
    (msgs.filter (fun m => m.chat_id == c)).Pairwise
      (fun a b => strLeB a.timestamp b.timestamp = true) := by
  have hsub : (msgs.filter (fun m => m.chat_id == c)).Pairwise
      (fun a b => msgOrderB a b = true) :=
    hsort.sublist (List.filter_sublist msgs)
  have hall : ∀ m ∈ msgs.filter (fun m => m.chat_id == c), m.chat_id = c := by
    intro m hm
    rw [List.mem_filter] at hm
    exact beq_iff_eq.mp hm.2
  refine List.Pairwise.imp_of_mem ?_ hsub
  intro a b ha hb hab
  rwa [msgOrderB, if_pos (by rw [hall a ha, hall b hb])] at hab

theorem chatMetadata_participants (c : Option Int) (g : List Msg) :
    lookupMeta (chatMetadata c g) "participants" = some (.strList (nonSelfNames g)) := rfl

theorem nonSelfNames_sound (g : List Msg) :
    ∀ n ∈ nonSelfNames g, ∃ m ∈ g, m.is_from_me = false ∧ m.contact_name = n := by
  intro n hn
  rw [nonSelfNames, mem_firstSeen, List.mem_map] at hn
  obtain ⟨m, hm, rfl⟩ := hn
  rw [List.mem_filter] at hm
  exact ⟨m, hm.1, by simpa using hm.2, rfl⟩

theorem nonSelfNames_complete (g : List Msg) :
    ∀ m ∈ g, m.is_from_me = false → m.contact_name ∈ nonSelfNames g := by
  intro m hm hns
  rw [nonSelfNames, mem_firstSeen, List.mem_map]
  refine ⟨m, ?_, rfl⟩
  rw [List.mem_filter]
  exact ⟨hm, by simp [hns]⟩

/-- C8: in concatenated mode, a message sequence sorted by
(chat_id, timestamp) spanning exactly two distinct chat ids (first seen
c1v then c2v) yields exactly the two documents built from the two chats'
own messages — each group being the order-preserving filter of the input,
hence in ascending timestamp order — in first-seen chat order, and each
document's participants metadata is exactly the set of contact names of the
non-self messages of its chat (self senders' messages contribute nothing). -/
theorem c8_two_chat_grouping (msgs : List Msg) (c1v c2v : Option Int)
    (hne : c1v ≠ c2v)
    (hkeys : firstSeen (msgs.map (fun m => m.chat_id)) = [c1v, c2v])
    (hsort : msgs.Pairwise (fun a b => msgOrderB a b = true)) :
    imessageBuildDocs true msgs =
      [mkChatDocument c1v (msgs.filter (fun m => m.chat_id == c1v)),
       mkChatDocument c2v (msgs.filter (fun m => m.chat_id == c2v))] ∧
    (msgs.filter (fun m => m.chat_id == c1v)).Pairwise
      (fun a b => strLeB a.timestamp b.timestamp = true) ∧
    (msgs.filter (fun m => m.chat_id == c2v)).Pairwise
      (fun a b => strLeB a.timestamp b.timestamp = true) ∧
    (∀ m ∈ msgs.filter (fun m => m.chat_id == c1v), m.chat_id = c1v) ∧
    (∀ m ∈ msgs.filter (fun m => m.chat_id == c2v), m.chat_id = c2v) ∧
    lookupMeta (mkChatDocument c1v (msgs.filter (fun m => m.chat_id == c1v))).metadata
        "participants" =
      some (.strList (nonSelfNames (msgs.filter (fun m => m.chat_id == c1v)))) ∧
    lookupMeta (mkChatDocument c2v (msgs.filter (fun m => m.chat_id == c2v))).metadata
        "participants" =
      some (.strList (nonSelfNames (msgs.filter (fun m => m.chat_id == c2v)))) ∧
    (∀ n ∈ nonSelfNames (msgs.filter (fun m => m.chat_id == c1v)),
      ∃ m ∈ msgs.filter (fun m => m.chat_id == c1v),
        m.is_from_me = false ∧ m.contact_name = n) ∧
    (∀ m ∈ msgs.filter (fun m => m.chat_id == c1v), m.is_from_me = false →
      m.contact_name ∈ nonSelfNames (msgs.filter (fun m => m.chat_id == c1v))) ∧
    (∀ n ∈ nonSelfNames (msgs.filter (fun m => m.chat_id == c2v)),
      ∃ m ∈ msgs.filter (fun m => m.chat_id == c2v),
        m.is_from_me = false ∧ m.contact_name = n) ∧
    (∀ m ∈ msgs.filter (fun m => m.chat_id == c2v), m.is_from_me = false →
      m.contact_name ∈ nonSelfNames (msgs.filter (fun m => m.chat_id == c2v))) := by
  have hf1 : msgs.filter (fun m => m.chat_id == c1v) ≠ [] :=
    filter_chat_ne_nil msgs c1v (by rw [hkeys]; simp)
  have hf2 : msgs.filter (fun m => m.chat_id == c2v) ≠ [] :=
    filter_chat_ne_nil msgs c2v (by rw [hkeys]; simp)
  refine ⟨?_, pairwise_ts_of_filter msgs c1v hsort, pairwise_ts_of_filter msgs c2v hsort,
    fun m hm => beq_iff_eq.mp (List.mem_filter.mp hm).2,
    fun m hm => beq_iff_eq.mp (List.mem_filter.mp hm).2,
    chatMetadata_participants c1v _, chatMetadata_participants c2v _,
    nonSelfNames_sound _, nonSelfNames_complete _,
    nonSelfNames_sound _, nonSelfNames_complete _⟩
  have hgrp := groupMessagesByChat_eq msgs
  rw [hkeys] at hgrp
  simp only [List.map_cons, List.map_nil] at hgrp
  rw [imessageBuildDocs, if_pos rfl, hgrp]
  have hf1e : (msgs.filter (fun m => m.chat_id == c1v)).isEmpty = false := by
    simpa [List.isEmpty_iff] using hf1
  have hf2e : (msgs.filter (fun m => m.chat_id == c2v)).isEmpty = false := by
    simpa [List.isEmpty_iff] using hf2
  simp only [List.filterMap_cons, List.filterMap_nil]
  rw [hf1e, hf2e]
  simp [mkChatDocument]

/-- Witness for C8 at a concrete three-message, two-chat input. -/
theorem c8_two_chat_grouping_witness :
    ((some 1 : Option Int) ≠ (some 2 : Option Int) ∧
     firstSeen (c8WitnessMsgs.map (fun m => m.chat_id)) = [some 1, some 2] ∧
     c8WitnessMsgs.Pairwise (fun a b => msgOrderB a b = true)) ∧
    (imessageBuildDocs true c8WitnessMsgs =
      [mkChatDocument (some 1) (c8WitnessMsgs.filter (fun m => m.chat_id == some 1)),
       mkChatDocument (some 2) (c8WitnessMsgs.filter (fun m => m.chat_id == some 2))] ∧
    (c8WitnessMsgs.filter (fun m => m.chat_id == some 1)).Pairwise
      (fun a b => strLeB a.timestamp b.timestamp = true) ∧
    (c8WitnessMsgs.filter (fun m => m.chat_id == some 2)).Pairwise
      (fun a b => strLeB a.timestamp b.timestamp = true) ∧
    (∀ m ∈ c8WitnessMsgs.filter (fun m => m.chat_id == some 1), m.chat_id = some 1) ∧
    (∀ m ∈ c8WitnessMsgs.filter (fun m => m.chat_id == some 2), m.chat_id = some 2) ∧
    lookupMeta (mkChatDocument (some 1)
        (c8WitnessMsgs.filter (fun m => m.chat_id == some 1))).metadata "participants" =
      some (.strList (nonSelfNames (c8WitnessMsgs.filter (fun m => m.chat_id == some 1)))) ∧
    lookupMeta (mkChatDocument (some 2)
        (c8WitnessMsgs.filter (fun m => m.chat_id == some 2))).metadata "participants" =
      some (.strList (nonSelfNames (c8WitnessMsgs.filter (fun m => m.chat_id == some 2)))) ∧
    (∀ n ∈ nonSelfNames (c8WitnessMsgs.filter (fun m => m.chat_id == some 1)),
      ∃ m ∈ c8WitnessMsgs.filter (fun m => m.chat_id == some 1),
        m.is_from_me = false ∧ m.contact_name = n) ∧
    (∀ m ∈ c8WitnessMsgs.filter (fun m => m.chat_id == some 1), m.is_from_me = false →
      m.contact_name ∈ nonSelfNames (c8WitnessMsgs.filter (fun m => m.chat_id == some 1))) ∧
    (∀ n ∈ nonSelfNames (c8WitnessMsgs.filter (fun m => m.chat_id == some 2)),
      ∃ m ∈ c8WitnessMsgs.filter (fun m => m.chat_id == some 2),
        m.is_from_me = false ∧ m.contact_name = n) ∧
    (∀ m ∈ c8WitnessMsgs.filter (fun m => m.chat_id == some 2), m.is_from_me = false →
      m.contact_name ∈ nonSelfNames (c8WitnessMsgs.filter (fun m => m.chat_id == some 2)))) :=
  ⟨⟨by decide, by decide, by decide⟩,
   c8_two_chat_grouping c8WitnessMsgs (some 1) (some 2) (by decide) (by decide) (by decide)⟩

theorem floatOverflowNs_eq : floatOverflowNs = 2 ^ 1024 * 10 ^ 9 := by
  norm_num [floatOverflowNs]

theorem orStr_ne_empty (o : Option String) (d : String) (hd : d ≠ "") : orStr o d ≠ "" := by
  cases o with
  | none => exact hd
  | some s =>
    by_cases hs : s = ""
    · simpa [orStr, hs] using hd
    · simpa [orStr, hs] using hs

theorem getContactName_ne_empty (h : String) : getContactName h ≠ "" := by
  unfold getContactName
  split
  · decide
  next hne =>
    split
    · exact hne
    split
    · exact hne
    · split
      · exact strAppend_ne_empty_left _ _ (strAppend_ne_empty_left _ _
          (strAppend_ne_empty_left _ _ (strAppend_ne_empty_left "(" _ (by decide))))
      · split
        · exact strAppend_ne_empty_left _ _ (strAppend_ne_empty_left _ _
            (strAppend_ne_empty_left _ _ (strAppend_ne_empty_left "+1 (" _ (by decide))))
        · exact hne

theorem rowToMsg_fields (r : ImsgRow) (m : Msg) (h : rowToMsg r = .ok m) :
    m.service ≠ "" ∧ m.chat_identifier ≠ "" ∧ m.chat_display_name ≠ "" ∧
      m.handle_id ≠ "" ∧ m.contact_name ≠ "" := by
  unfold rowToMsg at h
  split at h
  · cases h
  next ts hts =>
    cases h
    exact ⟨orStr_ne_empty _ _ (by decide), orStr_ne_empty _ _ (by decide),
      orStr_ne_empty _ _ (by decide), orStr_ne_empty _ _ (by decide),
      getContactName_ne_empty _⟩

theorem imessageBuildDocs_mem (msgs : List Msg) (d : Document)
    (hd : d ∈ imessageBuildDocs true msgs) :
    ∃ c g, d = mkChatDocument c g := by
  rw [imessageBuildDocs, if_pos rfl, List.mem_filterMap] at hd
  obtain ⟨p, hp, hpd⟩ := hd
  by_cases he : p.2.isEmpty = true
  · rw [if_pos he] at hpd
    cases hpd
  · rw [if_neg he] at hpd
    exact ⟨p.1, p.2, (Option.some.inj hpd).symm⟩

theorem mailLoop_docs_shape (rexc : Option Nat) :
    ∀ (rows : List MailRow) (i : Nat) (docs : List Document),
      ∀ d ∈ loopDocs (mailLoop rexc rows i docs),
        d ∈ docs ∨ ∃ r : MailRow, d = mailRowDoc r := by
  intro rows
  induction rows with
  | nil =>
    intro i docs d hd
    exact Or.inl (by simpa [mailLoop, loopDocs] using hd)
  | cons r rest ih =>
    intro i docs d hd
    simp only [mailLoop] at hd
    split at hd
    · exact Or.inl (by simpa [loopDocs] using hd)
    · split at hd
      · exact ih (i + 1) docs d hd
      · rcases ih (i + 1) (docs ++ [mailRowDoc r]) d hd with hmem | hr
        · rcases List.mem_append.mp hmem with h | h
          · exact Or.inl h
          · simp at h
            exact Or.inr ⟨r, h⟩
        · exact Or.inr hr

theorem calLoop_docs_shape (rexc : Option Nat) :
    ∀ (rows : List CalRow) (i : Nat) (docs : List Document),
      ∀ d ∈ loopDocs (calLoop rexc rows i docs),
        d ∈ docs ∨ ∃ r : CalRow, truthyStr r.summary = true ∧ d = calRowDoc r := by
  intro rows
  induction rows with
  | nil =>
    intro i docs d hd
    exact Or.inl (by simpa [calLoop, loopDocs] using hd)
  | cons r rest ih =>
    intro i docs d hd
    simp only [calLoop] at hd
    split at hd
    · exact Or.inl (by simpa [loopDocs] using hd)
    · split at hd
      next hskip =>
        exact ih (i + 1) docs d hd
      next hskip =>
        rcases ih (i + 1) (docs ++ [calRowDoc r]) d hd with hmem | hr
        · rcases List.mem_append.mp hmem with h | h
          · exact Or.inl h
          · simp at h
            exact Or.inr ⟨r, by simpa using hskip, h⟩
        · exact Or.inr hr

/-- C9 corrected: the fields given explicit fallbacks truly never carry a
null (or empty) placeholder — the messaging per-message dict renders
missing service/chat/handle/contact columns as non-empty fallback strings,
conversation metadata carries string chat names/identifiers/dates, mail
metadata subject/sender are always strings, and the calendar event title is
a string for every emitted row — but the messaging chat_id and the calendar
start are passed through unchanged, so those metadata values are null
whenever the source column is NULL (see the counterexample). -/
theorem c9_amended_fallback_fields :
    (∀ (r : ImsgRow) (m : Msg), rowToMsg r = .ok m →
      m.service ≠ "" ∧ m.chat_identifier ≠ "" ∧ m.chat_display_name ≠ "" ∧
        m.handle_id ≠ "" ∧ m.contact_name ≠ "") ∧
    (∀ (msgs : List Msg) (d : Document), d ∈ imessageBuildDocs true msgs →
      (∃ s, lookupMeta d.metadata "chat_name" = some (PyVal.str s)) ∧
      (∃ s, lookupMeta d.metadata "chat_identifier" = some (PyVal.str s)) ∧
      (∃ s, lookupMeta d.metadata "first_message_date" = some (PyVal.str s)) ∧
      (∃ s, lookupMeta d.metadata "last_message_date" = some (PyVal.str s))) ∧
    (∀ (env : MailEnv) (mc : Int), ∀ d ∈ docsOf (mailLoadData env mc),
      ∃ s t, d.metadata = [("subject", PyVal.str s), ("sender", PyVal.str t)]) ∧
    (∀ (env : CalEnv) (mc : Int), ∀ d ∈ docsOf (calendarLoadData env mc),
      ∃ s, lookupMeta d.metadata "event" = some (PyVal.str s)) := by
  refine ⟨rowToMsg_fields, ?_, ?_, ?_⟩
  · intro msgs d hd
    obtain ⟨c, g, rfl⟩ := imessageBuildDocs_mem msgs d hd
    exact ⟨⟨_, rfl⟩, ⟨_, rfl⟩, ⟨_, rfl⟩, ⟨_, rfl⟩⟩
  · intro env mc d hd
    unfold mailLoadData at hd
    split at hd
    · simp [docsOf] at hd
    split at hd
    · simp [docsOf] at hd
    split at hd
    · simp [docsOf] at hd
    split at hd
    · simp [docsOf] at hd
    · split at hd
      next e docs heq =>
        simp only [docsOf] at hd
        have hs := mailLoop_docs_shape env.rowExc (limitRows mc env.rows) 0 [] d
          (by rw [heq]; simpa [loopDocs] using hd)
        rcases hs with h | ⟨r, hr⟩
        · simp at h
        · subst hr
          exact ⟨orEmpty r.subject, orEmpty r.sender, rfl⟩
      next docs heq =>
        simp only [docsOf] at hd
        have hs := mailLoop_docs_shape env.rowExc (limitRows mc env.rows) 0 [] d
          (by rw [heq]; simpa [loopDocs] using hd)
        rcases hs with h | ⟨r, hr⟩
        · simp at h
        · subst hr
          exact ⟨orEmpty r.subject, orEmpty r.sender, rfl⟩
  · intro env mc d hd
    unfold calendarLoadData at hd
    split at hd
    · simp [docsOf] at hd
    split at hd
    · simp [docsOf] at hd
    split at hd
    · simp [docsOf] at hd
    split at hd
    · simp [docsOf] at hd
    · have hshape : d ∈ docsOf (PyResult.ok (⟨[], false, [], []⟩ : ReadOutcome)) ∨
          True := Or.inr trivial
      split at hd
      next e docs heq =>
        simp only [docsOf] at hd
        have hs := calLoop_docs_shape env.rowExc (limitRows mc env.rows) 0 [] d
          (by rw [heq]; simpa [loopDocs] using hd)
        rcases hs with h | ⟨r, hsum, hr⟩
        · simp at h
        · subst hr
          cases hsummary : r.summary with
          | none => rw [hsummary] at hsum; simp [truthyStr] at hsum
          | some s =>
            refine ⟨s, ?_⟩
            simp [calRowDoc, lookupMeta, optStrVal, hsummary]
      next docs heq =>
        simp only [docsOf] at hd
        have hs := calLoop_docs_shape env.rowExc (limitRows mc env.rows) 0 [] d
          (by rw [heq]; simpa [loopDocs] using hd)
        rcases hs with h | ⟨r, hsum, hr⟩
        · simp at h
        · subst hr
          cases hsummary : r.summary with
          | none => rw [hsummary] at hsum; simp [truthyStr] at hsum
          | some s =>
            refine ⟨s, ?_⟩
            simp [calRowDoc, lookupMeta, optStrVal, hsummary]

/-- Witness for C9's amended statement at a concrete mail document. -/
theorem c9_amended_fallback_fields_witness :
    (mailRowDoc ⟨some "Hi", some "a@b.c", some "2024-01-01 00:00:00", some "snippet"⟩ ∈
      docsOf (mailLoadData mailEnvOneRow 1000)) ∧
    (∃ s t, (mailRowDoc ⟨some "Hi", some "a@b.c", some "2024-01-01 00:00:00",
        some "snippet"⟩).metadata = [("subject", PyVal.str s), ("sender", PyVal.str t)]) :=
  ⟨by decide, c9_amended_fallback_fields.2.2.1 mailEnvOneRow 1000 _ (by decide)⟩
